import Mathlib

/-! CHIP-8 interpreter core (`internal/chip8/chip8.go`)

A shallow embedding of the `VirtualMachine` of the repository and of its
operations `CreateVirtualMachine`, `Load`, `FetchOpcode`, `DecodeExecuteOpcode`
and `Tick`, followed by theorems about them.

Modelling conventions.

* Go's fixed-size arrays (`[4096]byte`, `[16]uint8`, `[64][32]byte`, `[16]byte`)
  are total functions on `Nat`; every array access of the source whose index is
  not bounded by its type is guarded by the bound check the Go runtime performs,
  and a failed check yields `Result.panic`, carrying the machine as mutated up
  to that point (the methods have a pointer receiver).
* `uint8` and `uint16` values are natural numbers; every operation of the source
  that can leave the range is followed by an explicit `% 256` or `% 65536`.
* The console log lines written by `DecodeExecuteOpcode` are not modelled; the
  line written by `Tick` is, as the list of lines the call prints.
* `rand.Intn(256)` is the parameter `rnd` of `DecodeExecuteOpcode`.
-/

namespace Chip8

/-- The machine state, field by field as in the source. -/
structure VirtualMachine where
  Memory : Nat → Nat
  IndexRegister : Nat
  ProgramCounter : Nat
  Stack : List Nat
  Registers : Nat → Nat
  DelayTimer : Nat
  SoundTimer : Nat
  Display : Nat → Nat → Nat
  Keyboard : Nat → Nat

/-- Outcome of a method call: normal return, or a Go runtime panic (index out of
range); both carry the machine as it is at that moment. -/
inductive Result where
  | ok (vm : VirtualMachine)
  | panic (vm : VirtualMachine)

/-- The values a Go program can store in the fields: bytes in the byte arrays and
timers, 16-bit values in the index register, program counter and stack. -/
def WellFormed (vm : VirtualMachine) : Prop :=
  (∀ a, a < 4096 → vm.Memory a < 256) ∧
  vm.IndexRegister < 65536 ∧
  vm.ProgramCounter < 65536 ∧
  (∀ p, p ∈ vm.Stack → p < 65536) ∧
  (∀ i, i < 16 → vm.Registers i < 256) ∧
  vm.DelayTimer < 256 ∧
  vm.SoundTimer < 256 ∧
  (∀ x, x < 64 → ∀ y, y < 32 → vm.Display x y < 256) ∧
  (∀ k, k < 16 → vm.Keyboard k < 256)

/-- Every display cell is 0 or 1. -/
def BinaryDisplay (vm : VirtualMachine) : Prop :=
  ∀ x, x < 64 → ∀ y, y < 32 → vm.Display x y = 0 ∨ vm.Display x y = 1

def fontSet : List Nat := [
  0xF0, 0x90, 0x90, 0x90, 0xF0,
  0x20, 0x60, 0x20, 0x20, 0x70,
  0xF0, 0x10, 0xF0, 0x80, 0xF0,
  0xF0, 0x10, 0xF0, 0x10, 0xF0,
  0x90, 0x90, 0xF0, 0x10, 0x10,
  0xF0, 0x80, 0xF0, 0x10, 0xF0,
  0xF0, 0x80, 0xF0, 0x90, 0xF0,
  0xF0, 0x10, 0x20, 0x40, 0x40,
  0xF0, 0x90, 0xF0, 0x90, 0xF0,
  0xF0, 0x90, 0xF0, 0x10, 0xF0,
  0xF0, 0x90, 0xF0, 0x90, 0x90,
  0xE0, 0x90, 0xE0, 0x90, 0xE0,
  0xF0, 0x80, 0x80, 0x80, 0xF0,
  0xE0, 0x90, 0x90, 0x90, 0xE0,
  0xF0, 0x80, 0xF0, 0x80, 0xF0,
  0xF0, 0x80, 0xF0, 0x80, 0x80]

def screenWidth : Nat := 64

def screenHeight : Nat := 32

/-- The zero-valued machine with the font table copied to the start of memory. -/
def CreateVirtualMachine : VirtualMachine :=
  { Memory := fun a => if a < 80 then fontSet.getD a 0 else 0
    IndexRegister := 0
    ProgramCounter := 0
    Stack := []
    Registers := fun _ => 0
    DelayTimer := 0
    SoundTimer := 0
    Display := fun _ _ => 0
    Keyboard := fun _ => 0 }

/-- The loop of `Load`: `k` iterations remain, `i` is the loop variable. The
store `vm.Memory[512+i]` panics when `512+i` is not below 4096. -/
def loadLoop (data : List Nat) : Nat → Nat → VirtualMachine → Result
  | 0, _, vm => Result.ok vm
  | k + 1, i, vm =>
    if 512 + i < 4096 then
      loadLoop data k (i + 1)
        { vm with Memory := Function.update vm.Memory (512 + i) (data.getD i 0) }
    else Result.panic vm

def Load (vm : VirtualMachine) (data : List Nat) : Result :=
  match loadLoop data data.length 0 vm with
  | Result.ok vm1 => Result.ok { vm1 with ProgramCounter := 512 }
  | Result.panic vm1 => Result.panic vm1

/-- Reads the two bytes at `pc` and `pc+1` (16-bit addition); `none` when one of
the two array reads is out of range. -/
def getOpcode (vm : VirtualMachine) (pc : Nat) : Option Nat :=
  if pc < 4096 then
    let firstByte := vm.Memory pc
    if (pc + 1) % 65536 < 4096 then
      let secondByte := vm.Memory ((pc + 1) % 65536)
      some (((firstByte <<< 8) % 65536) ||| secondByte)
    else none
  else none

def incrementPC (vm : VirtualMachine) : VirtualMachine :=
  { vm with ProgramCounter := (vm.ProgramCounter + 2) % 65536 }

/-- The fetched word and the machine with the program counter advanced; `none`
when `getOpcode` panics (the machine is then unchanged). -/
def FetchOpcode (vm : VirtualMachine) : Option (Nat × VirtualMachine) :=
  match getOpcode vm vm.ProgramCounter with
  | some opcode => some (opcode, incrementPC vm)
  | none => none

/-- Body of the inner loop of the sprite draw, for one `bitIndex`. -/
def drawBit (xCoord yCoord byteIndex spriteRow : Nat) (vm : VirtualMachine)
    (bitIndex : Nat) : VirtualMachine :=
  let displayX := ((xCoord + bitIndex) % 65536) % screenWidth
  let displayY := ((yCoord + byteIndex) % 65536) % screenHeight
  if displayX ≥ screenWidth ∨ displayY ≥ screenHeight then vm
  else
    let spriteBit := (spriteRow >>> (8 - bitIndex - 1)) &&& 0x1
    let displayBit := vm.Display displayX displayY
    let vm1 : VirtualMachine :=
      if spriteBit = 1 ∧ displayBit = 1 then
        { vm with Registers := Function.update vm.Registers 0xF 1 }
      else vm
    { vm1 with
      Display := Function.update vm1.Display displayX
        (Function.update (vm1.Display displayX) displayY (displayBit ^^^ spriteBit)) }

/-- The inner loop of the sprite draw: `bitIndex` from 0 to 7. -/
def drawRow (xCoord yCoord byteIndex spriteRow : Nat) (vm : VirtualMachine) :
    VirtualMachine :=
  (List.range 8).foldl (drawBit xCoord yCoord byteIndex spriteRow) vm

/-- The outer loop of the sprite draw: `k` iterations remain, `byteIndex` is the
loop variable. The read `vm.Memory[vm.IndexRegister + byteIndex]` (16-bit
addition) panics when the address is not below 4096. -/
def drawLoop (xCoord yCoord : Nat) : Nat → Nat → VirtualMachine → Result
  | 0, _, vm => Result.ok vm
  | k + 1, byteIndex, vm =>
    let addr := (vm.IndexRegister + byteIndex) % 65536
    if addr < 4096 then
      let spriteRow := vm.Memory addr
      drawLoop xCoord yCoord k (byteIndex + 1)
        (drawRow xCoord yCoord byteIndex spriteRow vm)
    else Result.panic vm

/-- The key scan of 0xFX0A: the state is the machine and `keyPress`. -/
def keyScan (x : Nat) (st : VirtualMachine × Bool) (i : Nat) : VirtualMachine × Bool :=
  if st.1.Keyboard i = 1 then
    ({ st.1 with Registers := Function.update st.1.Registers x (i % 256) }, true)
  else st

/-- The loop of 0xFX55: `k` iterations remain, `i` is the loop variable. -/
def storeLoop : Nat → Nat → VirtualMachine → Result
  | 0, _, vm => Result.ok vm
  | k + 1, i, vm =>
    let addr := (vm.IndexRegister + i) % 65536
    if addr < 4096 then
      storeLoop k (i + 1) { vm with Memory := Function.update vm.Memory addr (vm.Registers i) }
    else Result.panic vm

/-- The loop of 0xFX65: `k` iterations remain, `i` is the loop variable. -/
def fillLoop : Nat → Nat → VirtualMachine → Result
  | 0, _, vm => Result.ok vm
  | k + 1, i, vm =>
    let addr := (vm.IndexRegister + i) % 65536
    if addr < 4096 then
      fillLoop k (i + 1) { vm with Registers := Function.update vm.Registers i (vm.Memory addr) }
    else Result.panic vm

/-- Body of the inner loop of the screen clear: `vm.Display[x][y] = 0`. -/
def clearCell (x : Nat) (vm : VirtualMachine) (y : Nat) : VirtualMachine :=
  { vm with Display := Function.update vm.Display x (Function.update (vm.Display x) y 0) }

/-- The inner loop of the screen clear: `y` from 0 to `screenHeight - 1`. -/
def clearColumn (vm : VirtualMachine) (x : Nat) : VirtualMachine :=
  (List.range screenHeight).foldl (clearCell x) vm

/-- Case 0x0000 of the outer switch. The read `vm.Stack[len(vm.Stack) - 1]`
panics when the stack is empty. -/
def exec0 (vm : VirtualMachine) (nn : Nat) : Result :=
  if nn = 0x00E0 then
    Result.ok ((List.range screenWidth).foldl clearColumn vm)
  else if nn = 0x00EE then
    if 0 < vm.Stack.length then
      let poppedPC := vm.Stack.getD (vm.Stack.length - 1) 0
      Result.ok { vm with
        Stack := vm.Stack.take (vm.Stack.length - 1)
        ProgramCounter := poppedPC }
    else Result.panic vm
  else Result.ok vm

/-- Case 0x8000 of the outer switch. -/
def exec8 (vm : VirtualMachine) (x y n : Nat) : Result :=
  if n = 0x0000 then
    Result.ok { vm with Registers := Function.update vm.Registers x (vm.Registers y) }
  else if n = 0x0001 then
    Result.ok { vm with
      Registers := Function.update vm.Registers x (vm.Registers x ||| vm.Registers y) }
  else if n = 0x0002 then
    Result.ok { vm with
      Registers := Function.update vm.Registers x (vm.Registers x &&& vm.Registers y) }
  else if n = 0x0003 then
    Result.ok { vm with
      Registers := Function.update vm.Registers x (vm.Registers x ^^^ vm.Registers y) }
  else if n = 0x0004 then
    let vx := vm.Registers x
    let vm1 : VirtualMachine :=
      { vm with
        Registers := Function.update vm.Registers x ((vm.Registers x + vm.Registers y) % 256) }
    if vx + vm1.Registers y > 255 then
      Result.ok { vm1 with Registers := Function.update vm1.Registers 0xF 1 }
    else
      Result.ok { vm1 with Registers := Function.update vm1.Registers 0xF 0 }
  else if n = 0x0005 then
    let vx := vm.Registers x
    let vm1 : VirtualMachine :=
      { vm with
        Registers :=
          Function.update vm.Registers x ((vm.Registers x + 256 - vm.Registers y) % 256) }
    if vx ≥ vm1.Registers y then
      Result.ok { vm1 with Registers := Function.update vm1.Registers 0xF 1 }
    else
      Result.ok { vm1 with Registers := Function.update vm1.Registers 0xF 0 }
  else if n = 0x0006 then
    let carryBit := vm.Registers x &&& 0x01
    let vm1 : VirtualMachine :=
      { vm with Registers := Function.update vm.Registers x (vm.Registers x >>> 1) }
    Result.ok { vm1 with Registers := Function.update vm1.Registers 0xF carryBit }
  else if n = 0x0007 then
    let vx := vm.Registers x
    let vm1 : VirtualMachine :=
      { vm with
        Registers :=
          Function.update vm.Registers x ((vm.Registers y + 256 - vm.Registers x) % 256) }
    if vm1.Registers y ≥ vx then
      Result.ok { vm1 with Registers := Function.update vm1.Registers 0xF 1 }
    else
      Result.ok { vm1 with Registers := Function.update vm1.Registers 0xF 0 }
  else if n = 0x000E then
    let carryBit := (vm.Registers x >>> 7) &&& 0x01
    let vm1 : VirtualMachine :=
      { vm with Registers := Function.update vm.Registers x ((vm.Registers x <<< 1) % 256) }
    Result.ok { vm1 with Registers := Function.update vm1.Registers 0xF carryBit }
  else Result.ok vm

/-- Case 0xD000 of the outer switch. -/
def execD (vm : VirtualMachine) (x y n : Nat) : Result :=
  let xCoord := vm.Registers x
  let yCoord := vm.Registers y
  let vm1 : VirtualMachine := { vm with Registers := Function.update vm.Registers 0xF 0 }
  drawLoop xCoord yCoord n 0 vm1

/-- Case 0xE000 of the outer switch. The read `vm.Keyboard[vm.Registers[x]]`
panics when the register value is not below 16. -/
def execE (vm : VirtualMachine) (x nn : Nat) : Result :=
  if nn = 0x009E then
    if vm.Registers x < 16 then
      if vm.Keyboard (vm.Registers x) = 1 then Result.ok (incrementPC vm) else Result.ok vm
    else Result.panic vm
  else if nn = 0x00A1 then
    if vm.Registers x < 16 then
      if vm.Keyboard (vm.Registers x) ≠ 1 then Result.ok (incrementPC vm) else Result.ok vm
    else Result.panic vm
  else Result.ok vm

/-- Case 0xF000 of the outer switch. -/
def execF (vm : VirtualMachine) (x nn : Nat) : Result :=
  if nn = 0x0007 then
    Result.ok { vm with Registers := Function.update vm.Registers x vm.DelayTimer }
  else if nn = 0x0015 then
    Result.ok { vm with DelayTimer := vm.Registers x }
  else if nn = 0x0018 then
    Result.ok { vm with SoundTimer := vm.Registers x }
  else if nn = 0x001E then
    Result.ok { vm with IndexRegister := (vm.IndexRegister + vm.Registers x) % 65536 }
  else if nn = 0x000A then
    let st := (List.range 16).foldl (keyScan x) (vm, false)
    if ¬ st.2 = true then
      Result.ok { st.1 with ProgramCounter := (st.1.ProgramCounter + 65536 - 2) % 65536 }
    else Result.ok st.1
  else if nn = 0x0029 then
    if (0 + vm.Registers x) % 256 < 4096 then
      Result.ok { vm with IndexRegister := vm.Memory ((0 + vm.Registers x) % 256) }
    else Result.panic vm
  else if nn = 0x0033 then
    if vm.IndexRegister < 4096 then
      let vm1 : VirtualMachine :=
        { vm with Memory := Function.update vm.Memory vm.IndexRegister (vm.Registers x / 100) }
      if (vm1.IndexRegister + 1) % 65536 < 4096 then
        let vm2 : VirtualMachine :=
          { vm1 with
            Memory := Function.update vm1.Memory ((vm1.IndexRegister + 1) % 65536)
              ((vm1.Registers x / 10) % 10) }
        if (vm2.IndexRegister + 2) % 65536 < 4096 then
          Result.ok { vm2 with
            Memory := Function.update vm2.Memory ((vm2.IndexRegister + 2) % 65536)
              ((vm2.Registers x % 100) % 10) }
        else Result.panic vm2
      else Result.panic vm1
    else Result.panic vm
  else if nn = 0x0055 then
    storeLoop (x + 1) 0 vm
  else if nn = 0x0065 then
    fillLoop (x + 1) 0 vm
  else Result.ok vm

/-- The decoder and executor. `rnd` is the value returned by `rand.Intn(256)`. -/
def DecodeExecuteOpcode (rnd : Nat) (vm : VirtualMachine) (opcode : Nat) : Result :=
  let instruction := opcode &&& 0xF000
  let x := (opcode >>> 8) &&& 0x000F
  let y := (opcode >>> 4) &&& 0x000F
  let n := opcode &&& 0x000F
  let nn := opcode &&& 0x00FF
  let nnn := opcode &&& 0x0FFF
  if instruction = 0x0000 then exec0 vm nn
  else if instruction = 0x1000 then
    Result.ok { vm with ProgramCounter := nnn }
  else if instruction = 0x2000 then
    Result.ok { vm with
      Stack := vm.Stack ++ [vm.ProgramCounter]
      ProgramCounter := nnn }
  else if instruction = 0x3000 then
    if vm.Registers x = nn % 256 then Result.ok (incrementPC vm) else Result.ok vm
  else if instruction = 0x4000 then
    if vm.Registers x ≠ nn % 256 then Result.ok (incrementPC vm) else Result.ok vm
  else if instruction = 0x5000 then
    if vm.Registers x = vm.Registers y then Result.ok (incrementPC vm) else Result.ok vm
  else if instruction = 0x6000 then
    Result.ok { vm with Registers := Function.update vm.Registers x (nn % 256) }
  else if instruction = 0x7000 then
    Result.ok { vm with
      Registers := Function.update vm.Registers x ((vm.Registers x + nn % 256) % 256) }
  else if instruction = 0x8000 then exec8 vm x y n
  else if instruction = 0x9000 then
    if vm.Registers x ≠ vm.Registers y then Result.ok (incrementPC vm) else Result.ok vm
  else if instruction = 0xA000 then
    Result.ok { vm with IndexRegister := nnn }
  else if instruction = 0xB000 then
    Result.ok { vm with ProgramCounter := (nnn + vm.Registers 0) % 65536 }
  else if instruction = 0xC000 then
    Result.ok { vm with Registers := Function.update vm.Registers x ((rnd % 256) &&& (nn % 256)) }
  else if instruction = 0xD000 then execD vm x y n
  else if instruction = 0xE000 then execE vm x nn
  else if instruction = 0xF000 then execF vm x nn
  else Result.ok vm

/-- One iteration of the loop of `startMachine` (cmd/chip8/main.go):
`FetchOpcode` followed by `DecodeExecuteOpcode` on the fetched word. -/
def startMachineTick (rnd : Nat) (vm : VirtualMachine) : Result :=
  match FetchOpcode vm with
  | some (opcode, vm1) => DecodeExecuteOpcode rnd vm1 opcode
  | none => Result.panic vm

/-- The timer tick: the machine after the call and the lines it prints. -/
def Tick (vm : VirtualMachine) : VirtualMachine × List String :=
  let vm1 : VirtualMachine :=
    if vm.DelayTimer > 0 then { vm with DelayTimer := vm.DelayTimer - 1 } else vm
  let vm2 : VirtualMachine :=
    if vm1.SoundTimer > 0 then { vm1 with SoundTimer := vm1.SoundTimer - 1 } else vm1
  if vm2.SoundTimer = 0 then (vm2, ["BEEP"]) else (vm2, [])

/-- The machine a result carries. -/
def Result.machine : Result → VirtualMachine
  | Result.ok vm => vm
  | Result.panic vm => vm

/-- Whether the call returned normally. -/
def Result.isOk : Result → Bool
  | Result.ok _ => true
  | Result.panic _ => false

/-- The machine of `CreateVirtualMachine` with the given register file. -/
def withRegisters (regs : Nat → Nat) : VirtualMachine :=
  { CreateVirtualMachine with Registers := regs }

/-- Register file with `V0 = 128`, all other registers 0. -/
def regsV0 : Nat → Nat := fun i => if i = 0 then 128 else 0

/-- Register file with `V0 = 3`, `V1 = 200`, `V2 = 100`, `VF = 5`, all others 0. -/
def regsMixed : Nat → Nat :=
  fun i => if i = 0 then 3 else if i = 1 then 200 else if i = 2 then 100
    else if i = 15 then 5 else 0

/-- The machine of `CreateVirtualMachine` after loading the two-byte program
`0x6A, 0x05` (set register A to 5). -/
def vmSetA : VirtualMachine := (Load CreateVirtualMachine [0x6A, 0x05]).machine

/-- The machine of `CreateVirtualMachine` with the sound timer set to 1. -/
def vmSound1 : VirtualMachine := { CreateVirtualMachine with SoundTimer := 1 }

/-- A ROM of 3585 bytes, one more than fits, every byte 1. -/
def romTooLong : List Nat := List.replicate 3585 1

/-- Register file with every register at 255. -/
def regsFF : Nat → Nat := fun _ => 255

/-- One pixel operation of the sprite draw: the target cell and the sprite bit. -/
structure Pixel where
  col : Nat
  row : Nat
  bit : Nat

/-- The effect of one pixel operation (the body of the inner loop of the draw
once the target cell and the sprite bit are computed). -/
def plot (vm : VirtualMachine) (p : Pixel) : VirtualMachine :=
  let vm1 : VirtualMachine :=
    if p.bit = 1 ∧ vm.Display p.col p.row = 1 then
      { vm with Registers := Function.update vm.Registers 0xF 1 }
    else vm
  { vm1 with
    Display := Function.update vm1.Display p.col
      (Function.update (vm1.Display p.col) p.row (vm.Display p.col p.row ^^^ p.bit)) }

/-- The pixel operations of one sprite row, in the order of the inner loop. -/
def rowPixels (xCoord yCoord spriteRow byteIndex : Nat) : List Pixel :=
  (List.range 8).map fun bitIndex =>
    { col := (xCoord + bitIndex) % 64
      row := (yCoord + byteIndex) % 32
      bit := (spriteRow >>> (8 - bitIndex - 1)) &&& 0x1 }

/-- The pixel operations of the sprite rows `r0 .. r0 + k - 1`, in the order of
the two loops; `mem` and `index` are the memory and the index register. -/
def spritePixels (xCoord yCoord : Nat) (mem : Nat → Nat) (index r0 k : Nat) : List Pixel :=
  (List.range' r0 k).flatMap fun r => rowPixels xCoord yCoord (mem ((index + r) % 65536)) r

/-- The exclusive or of the sprite bits that a list of pixel operations sends to
the cell `(cx, cy)`. -/
def xorMask : List Pixel → Nat → Nat → Nat
  | [], _, _ => 0
  | p :: ps, cx, cy => (if p.col = cx ∧ p.row = cy then p.bit else 0) ^^^ xorMask ps cx cy

/-- The highest index below `n` whose key flag is 1, if there is one. -/
def lastPressed (keyboard : Nat → Nat) : Nat → Option Nat
  | 0 => none
  | n + 1 => if keyboard n = 1 then some n else lastPressed keyboard n

/-- The machine of `CreateVirtualMachine` with the keys 1 and 2 pressed. -/
def vmKeys12 : VirtualMachine :=
  { CreateVirtualMachine with Keyboard := fun k => if k = 1 ∨ k = 2 then 1 else 0 }

/-- Register file with `V0 = 62`, all other registers 0. -/
def regsEdge : Nat → Nat := fun i => if i = 0 then 62 else 0

/-- The machine of `CreateVirtualMachine` with the display cell (0, 0) lit. -/
def vmPixel : VirtualMachine :=
  { CreateVirtualMachine with Display := fun x y => if x = 0 ∧ y = 0 then 1 else 0 }

/-- The machine of `CreateVirtualMachine` with the index register at 4095, the
last address of memory. -/
def vmIndexEnd : VirtualMachine := { CreateVirtualMachine with IndexRegister := 4095 }

/-! ## Decoding -/

theorem shiftRight_and (a b i : Nat) : (a &&& b) >>> i = (a >>> i) &&& (b >>> i) := by
  apply Nat.eq_of_testBit_eq
  intro j
  simp [Nat.testBit_shiftRight, Nat.testBit_and]

theorem and_F000 (op : Nat) : op &&& 0xF000 = op / 4096 % 16 * 4096 := by
  have h1 : (op &&& 0xF000) >>> 12 = op / 4096 % 16 := by
    rw [shiftRight_and]
    have : (0xF000 : Nat) >>> 12 = 2 ^ 4 - 1 := by decide
    rw [this, Nat.and_pow_two_sub_one_eq_mod, Nat.shiftRight_eq_div_pow]
  have h2 : (op &&& 0xF000) % 4096 = 0 := by
    have : (4096 : Nat) = 2 ^ 12 := by norm_num
    rw [this, ← Nat.and_pow_two_sub_one_eq_mod, Nat.and_assoc]
    have : (0xF000 : Nat) &&& (2 ^ 12 - 1) = 0 := by decide
    rw [this, Nat.and_zero]
  rw [Nat.shiftRight_eq_div_pow] at h1
  omega

theorem and_000F (op : Nat) : op &&& 0x000F = op % 16 := by
  have : (0x000F : Nat) = 2 ^ 4 - 1 := by norm_num
  rw [this, Nat.and_pow_two_sub_one_eq_mod]

theorem and_00FF (op : Nat) : op &&& 0x00FF = op % 256 := by
  have : (0x00FF : Nat) = 2 ^ 8 - 1 := by norm_num
  rw [this, Nat.and_pow_two_sub_one_eq_mod]

theorem and_0FFF (op : Nat) : op &&& 0x0FFF = op % 4096 := by
  have : (0x0FFF : Nat) = 2 ^ 12 - 1 := by norm_num
  rw [this, Nat.and_pow_two_sub_one_eq_mod]

theorem shiftRight8_and (op : Nat) : (op >>> 8) &&& 0x000F = op / 256 % 16 := by
  rw [and_000F, Nat.shiftRight_eq_div_pow]

theorem shiftRight4_and (op : Nat) : (op >>> 4) &&& 0x000F = op / 16 % 16 := by
  rw [and_000F, Nat.shiftRight_eq_div_pow]

/-- Dispatch of the words of family 0x8000. -/
theorem decode_family8 (rnd : Nat) (vm : VirtualMachine) (op : Nat)
    (h : op / 4096 % 16 = 8) :
    DecodeExecuteOpcode rnd vm op = exec8 vm (op / 256 % 16) (op / 16 % 16) (op % 16) := by
  simp only [DecodeExecuteOpcode, and_F000, and_000F, shiftRight8_and, shiftRight4_and, h]
  simp [Nat.shiftRight_eq_div_pow]

/-- Dispatch of the words of family 0x0000. -/
theorem decode_family0 (rnd : Nat) (vm : VirtualMachine) (op : Nat)
    (h : op / 4096 % 16 = 0) :
    DecodeExecuteOpcode rnd vm op = exec0 vm (op % 256) := by
  simp only [DecodeExecuteOpcode, and_F000, and_00FF, h]
  simp

/-- Dispatch of the words of family 0x2000. -/
theorem decode_family2 (rnd : Nat) (vm : VirtualMachine) (op : Nat)
    (h : op / 4096 % 16 = 2) :
    DecodeExecuteOpcode rnd vm op =
      Result.ok { vm with
        Stack := vm.Stack ++ [vm.ProgramCounter]
        ProgramCounter := op % 4096 } := by
  simp only [DecodeExecuteOpcode, and_F000, and_0FFF, h]
  simp

/-- Dispatch of the words of family 0x6000. -/
theorem decode_family6 (rnd : Nat) (vm : VirtualMachine) (op : Nat)
    (h : op / 4096 % 16 = 6) :
    DecodeExecuteOpcode rnd vm op =
      Result.ok { vm with
        Registers := Function.update vm.Registers (op / 256 % 16) (op % 256 % 256) } := by
  simp only [DecodeExecuteOpcode, and_F000, and_00FF, shiftRight8_and, h]
  simp

/-- Dispatch of the words of family 0xD000. -/
theorem decode_familyD (rnd : Nat) (vm : VirtualMachine) (op : Nat)
    (h : op / 4096 % 16 = 13) :
    DecodeExecuteOpcode rnd vm op = execD vm (op / 256 % 16) (op / 16 % 16) (op % 16) := by
  simp only [DecodeExecuteOpcode, and_F000, and_000F, shiftRight8_and, shiftRight4_and, h]
  simp [Nat.shiftRight_eq_div_pow]

/-- Dispatch of the words of family 0xF000. -/
theorem decode_familyF (rnd : Nat) (vm : VirtualMachine) (op : Nat)
    (h : op / 4096 % 16 = 15) :
    DecodeExecuteOpcode rnd vm op = execF vm (op / 256 % 16) (op % 256) := by
  simp only [DecodeExecuteOpcode, and_F000, and_00FF, shiftRight8_and, h]
  simp

/-! ## Well-formed example machines -/

theorem fontSet_byte : ∀ a, a < 80 → fontSet.getD a 0 < 256 := by decide

theorem wellFormed_withRegisters (regs : Nat → Nat) (h : ∀ i, i < 16 → regs i < 256) :
    WellFormed (withRegisters regs) := by
  refine ⟨?_, ?_, ?_, ?_, h, ?_, ?_, ?_, ?_⟩ <;>
    simp [withRegisters, CreateVirtualMachine]
  intro a _
  split_ifs with ha
  · simpa using fontSet_byte a ha
  · decide

theorem regsV0_byte : ∀ i, i < 16 → regsV0 i < 256 := by decide

theorem regsMixed_byte : ∀ i, i < 16 → regsMixed i < 256 := by decide

/-! ## Arithmetic with flag: 0x8XY4, 0x8XY5, 0x8XY7 -/

/-- Decoding of a word of family 0x8000 assembled from its fields. -/
theorem decode_8XYN (rnd : Nat) (vm : VirtualMachine) (x y n : Nat)
    (hx : x < 16) (hy : y < 16) (hn : n < 16) :
    DecodeExecuteOpcode rnd vm (0x8000 + n + 0x100 * x + 0x10 * y) = exec8 vm x y n := by
  rw [decode_family8 rnd vm _ (by omega)]
  have h1 : (0x8000 + n + 0x100 * x + 0x10 * y) / 256 % 16 = x := by omega
  have h2 : (0x8000 + n + 0x100 * x + 0x10 * y) / 16 % 16 = y := by omega
  have h3 : (0x8000 + n + 0x100 * x + 0x10 * y) % 16 = n := by omega
  rw [h1, h2, h3]

/-- Closed form of case 0x0004: the flag is computed from the saved `vx` and from
register Y as it is after the addition. -/
theorem exec8_add (vm : VirtualMachine) (x y : Nat) :
    exec8 vm x y 4 = Result.ok
      { vm with
        Registers := Function.update
          (Function.update vm.Registers x ((vm.Registers x + vm.Registers y) % 256)) 0xF
          (if vm.Registers x +
              Function.update vm.Registers x ((vm.Registers x + vm.Registers y) % 256) y > 255
            then 1 else 0) } := by
  unfold exec8
  rw [if_neg (by decide), if_neg (by decide), if_neg (by decide), if_neg (by decide), if_pos rfl]
  split_ifs with h <;> simp only [h, if_true, if_false]

/-- Closed form of case 0x0005. -/
theorem exec8_sub (vm : VirtualMachine) (x y : Nat) :
    exec8 vm x y 5 = Result.ok
      { vm with
        Registers := Function.update
          (Function.update vm.Registers x ((vm.Registers x + 256 - vm.Registers y) % 256)) 0xF
          (if vm.Registers x ≥
              Function.update vm.Registers x ((vm.Registers x + 256 - vm.Registers y) % 256) y
            then 1 else 0) } := by
  unfold exec8
  rw [if_neg (by decide), if_neg (by decide), if_neg (by decide), if_neg (by decide), if_neg (by decide), if_pos rfl]
  split_ifs with h <;> simp only [h, if_true, if_false]

/-- Closed form of case 0x0007. -/
theorem exec8_subn (vm : VirtualMachine) (x y : Nat) :
    exec8 vm x y 7 = Result.ok
      { vm with
        Registers := Function.update
          (Function.update vm.Registers x ((vm.Registers y + 256 - vm.Registers x) % 256)) 0xF
          (if Function.update vm.Registers x ((vm.Registers y + 256 - vm.Registers x) % 256) y ≥
              vm.Registers x
            then 1 else 0) } := by
  unfold exec8
  rw [if_neg (by decide), if_neg (by decide), if_neg (by decide), if_neg (by decide), if_neg (by decide), if_neg (by decide), if_neg (by decide), if_pos rfl]
  split_ifs with h <;> simp only [h, if_true, if_false]

/-- C1, as amended: after 0x8XY4, register 0xF is 1 when the unwrapped sum of the
two original operands exceeds 255 and 0 otherwise, for every X different from Y,
and register X holds the sum modulo 256 for every X other than 0xF (X = Y
included). -/
theorem add_8XY4_flag_and_sum (rnd : Nat) (vm : VirtualMachine) (x y : Nat)
    (hx : x < 16) (hy : y < 16) :
    ∃ vm', DecodeExecuteOpcode rnd vm (0x8004 + 0x100 * x + 0x10 * y) = Result.ok vm' ∧
      (x ≠ y →
        vm'.Registers 0xF = if vm.Registers x + vm.Registers y > 255 then 1 else 0) ∧
      (x ≠ 0xF → vm'.Registers x = (vm.Registers x + vm.Registers y) % 256) := by
  have hd := decode_8XYN rnd vm x y 4 hx hy (by decide)
  rw [show 0x8000 + 4 + 0x100 * x + 0x10 * y = 0x8004 + 0x100 * x + 0x10 * y by omega] at hd
  rw [hd, exec8_add]
  refine ⟨_, rfl, fun hxy => ?_, fun hxF => ?_⟩
  · have hyx : y ≠ x := fun h => hxy h.symm
    simp [Function.update_apply, hyx]
  · simp [Function.update_apply, hxF]

/-- C1, witness: `V1 = 200`, `V2 = 100`, word 0x8124. -/
theorem add_8XY4_flag_and_sum_witness :
    (1 < 16 ∧ 2 < 16) ∧
    ∃ vm', DecodeExecuteOpcode 0 (withRegisters regsMixed) (0x8004 + 0x100 * 1 + 0x10 * 2)
        = Result.ok vm' ∧
      (1 ≠ 2 →
        vm'.Registers 0xF =
          if (withRegisters regsMixed).Registers 1 + (withRegisters regsMixed).Registers 2 > 255
          then 1 else 0) ∧
      (1 ≠ 0xF →
        vm'.Registers 1 =
          ((withRegisters regsMixed).Registers 1 + (withRegisters regsMixed).Registers 2) % 256) :=
  ⟨⟨by decide, by decide⟩,
    add_8XY4_flag_and_sum 0 (withRegisters regsMixed) 1 2 (by decide) (by decide)⟩

/-- C1, as stated, fails at two inputs. With X = Y = 0 and `V0 = 128` the word
0x8004 leaves register 0xF at 0 although the unwrapped sum 256 exceeds 255. With
X = 0xF, Y = 0, `VF = 5`, `V0 = 3` the word 0x8F04 leaves register X = 0xF at 0
(the flag), not at the sum 8. -/
theorem add_8XY4_counterexample :
    (WellFormed (withRegisters regsV0) ∧
      (DecodeExecuteOpcode 0 (withRegisters regsV0) 0x8004).isOk = true ∧
      regsV0 0 + regsV0 0 = 256 ∧
      (DecodeExecuteOpcode 0 (withRegisters regsV0) 0x8004).machine.Registers 0xF = 0 ∧
      (DecodeExecuteOpcode 0 (withRegisters regsV0) 0x8004).machine.Registers 0xF ≠
        (if regsV0 0 + regsV0 0 > 255 then 1 else 0)) ∧
    (WellFormed (withRegisters regsMixed) ∧
      (DecodeExecuteOpcode 0 (withRegisters regsMixed) 0x8F04).isOk = true ∧
      (regsMixed 0xF + regsMixed 0) % 256 = 8 ∧
      (DecodeExecuteOpcode 0 (withRegisters regsMixed) 0x8F04).machine.Registers 0xF = 0 ∧
      (DecodeExecuteOpcode 0 (withRegisters regsMixed) 0x8F04).machine.Registers 0xF ≠
        (regsMixed 0xF + regsMixed 0) % 256) :=
  ⟨⟨wellFormed_withRegisters _ regsV0_byte, by decide, by decide, by decide, by decide⟩,
    ⟨wellFormed_withRegisters _ regsMixed_byte, by decide, by decide, by decide, by decide⟩⟩

/-- C2, as amended: after 0x8XY5, register 0xF is 1 when the original register X
is at least the original register Y and 0 otherwise (for all X, Y), and register
X holds the difference modulo 256 for every X other than 0xF. -/
theorem sub_8XY5_flag_and_difference (rnd : Nat) (vm : VirtualMachine) (x y : Nat)
    (hx : x < 16) (hy : y < 16) (hwf : WellFormed vm) :
    ∃ vm', DecodeExecuteOpcode rnd vm (0x8005 + 0x100 * x + 0x10 * y) = Result.ok vm' ∧
      (vm'.Registers 0xF = if vm.Registers x ≥ vm.Registers y then 1 else 0) ∧
      (x ≠ 0xF →
        (vm'.Registers x : Int) = ((vm.Registers x : Int) - (vm.Registers y : Int)) % 256) := by
  have hd := decode_8XYN rnd vm x y 5 hx hy (by decide)
  rw [show 0x8000 + 5 + 0x100 * x + 0x10 * y = 0x8005 + 0x100 * x + 0x10 * y by omega] at hd
  rw [hd, exec8_sub]
  have hX : vm.Registers x < 256 := hwf.2.2.2.2.1 x hx
  have hY : vm.Registers y < 256 := hwf.2.2.2.2.1 y hy
  refine ⟨_, rfl, ?_, fun hxF => ?_⟩
  · by_cases hxy : y = x
    · subst hxy
      simp
    · simp [Function.update_apply, hxy]
  · simp only [Function.update_apply, hxF, if_false, if_true]
    omega

/-- C2, witness: `V1 = 200`, `V2 = 100`, word 0x8215 computes `V2 - V1`. -/
theorem sub_8XY5_flag_and_difference_witness :
    (2 < 16 ∧ 1 < 16 ∧ WellFormed (withRegisters regsMixed)) ∧
    ∃ vm', DecodeExecuteOpcode 0 (withRegisters regsMixed) (0x8005 + 0x100 * 2 + 0x10 * 1)
        = Result.ok vm' ∧
      (vm'.Registers 0xF =
        if (withRegisters regsMixed).Registers 2 ≥ (withRegisters regsMixed).Registers 1
        then 1 else 0) ∧
      (2 ≠ 0xF →
        (vm'.Registers 2 : Int) =
          (((withRegisters regsMixed).Registers 2 : Int) -
            ((withRegisters regsMixed).Registers 1 : Int)) % 256) :=
  ⟨⟨by decide, by decide, wellFormed_withRegisters _ regsMixed_byte⟩,
    sub_8XY5_flag_and_difference 0 (withRegisters regsMixed) 2 1 (by decide) (by decide)
      (wellFormed_withRegisters _ regsMixed_byte)⟩

/-- C2, as stated, fails with X = 0xF, Y = 0, `VF = 5`, `V0 = 3`: the word 0x8F05
leaves register X = 0xF at 1 (the flag), not at the difference 2. -/
theorem sub_8XY5_counterexample :
    WellFormed (withRegisters regsMixed) ∧
    (DecodeExecuteOpcode 0 (withRegisters regsMixed) 0x8F05).isOk = true ∧
    ((regsMixed 0xF : Int) - (regsMixed 0 : Int)) % 256 = 2 ∧
    (DecodeExecuteOpcode 0 (withRegisters regsMixed) 0x8F05).machine.Registers 0xF = 1 ∧
    ((DecodeExecuteOpcode 0 (withRegisters regsMixed) 0x8F05).machine.Registers 0xF : Int) ≠
      ((regsMixed 0xF : Int) - (regsMixed 0 : Int)) % 256 :=
  ⟨wellFormed_withRegisters _ regsMixed_byte, by decide, by decide, by decide, by decide⟩

/-- C3, as amended: after 0x8XY7, register 0xF is 1 when the original register Y
is at least the original register X and 0 otherwise, for every X different from
Y, and register X holds (original Y - original X) modulo 256 for every X other
than 0xF (X = Y included). -/
theorem subn_8XY7_flag_and_difference (rnd : Nat) (vm : VirtualMachine) (x y : Nat)
    (hx : x < 16) (hy : y < 16) (hwf : WellFormed vm) :
    ∃ vm', DecodeExecuteOpcode rnd vm (0x8007 + 0x100 * x + 0x10 * y) = Result.ok vm' ∧
      (x ≠ y → vm'.Registers 0xF = if vm.Registers y ≥ vm.Registers x then 1 else 0) ∧
      (x ≠ 0xF →
        (vm'.Registers x : Int) = ((vm.Registers y : Int) - (vm.Registers x : Int)) % 256) := by
  have hd := decode_8XYN rnd vm x y 7 hx hy (by decide)
  rw [show 0x8000 + 7 + 0x100 * x + 0x10 * y = 0x8007 + 0x100 * x + 0x10 * y by omega] at hd
  rw [hd, exec8_subn]
  have hX : vm.Registers x < 256 := hwf.2.2.2.2.1 x hx
  have hY : vm.Registers y < 256 := hwf.2.2.2.2.1 y hy
  refine ⟨_, rfl, fun hxy => ?_, fun hxF => ?_⟩
  · have hyx : y ≠ x := fun h => hxy h.symm
    simp [Function.update_apply, hyx]
  · simp only [Function.update_apply, hxF, if_false, if_true]
    omega

/-- C3, witness: `V1 = 200`, `V2 = 100`, word 0x8127 computes `V2 - V1`. -/
theorem subn_8XY7_flag_and_difference_witness :
    (1 < 16 ∧ 2 < 16 ∧ WellFormed (withRegisters regsMixed)) ∧
    ∃ vm', DecodeExecuteOpcode 0 (withRegisters regsMixed) (0x8007 + 0x100 * 1 + 0x10 * 2)
        = Result.ok vm' ∧
      (1 ≠ 2 →
        vm'.Registers 0xF =
          if (withRegisters regsMixed).Registers 2 ≥ (withRegisters regsMixed).Registers 1
          then 1 else 0) ∧
      (1 ≠ 0xF →
        (vm'.Registers 1 : Int) =
          (((withRegisters regsMixed).Registers 2 : Int) -
            ((withRegisters regsMixed).Registers 1 : Int)) % 256) :=
  ⟨⟨by decide, by decide, wellFormed_withRegisters _ regsMixed_byte⟩,
    subn_8XY7_flag_and_difference 0 (withRegisters regsMixed) 1 2 (by decide) (by decide)
      (wellFormed_withRegisters _ regsMixed_byte)⟩

/-- C3, as stated, fails at two inputs. With X = Y = 0 and `V0 = 128` the word
0x8007 leaves register 0xF at 0 although original Y >= original X. With X = 0xF,
Y = 0, `VF = 5`, `V0 = 3` the word 0x8F07 leaves register X = 0xF at 0 (the flag),
not at the difference 254. -/
theorem subn_8XY7_counterexample :
    (WellFormed (withRegisters regsV0) ∧
      (DecodeExecuteOpcode 0 (withRegisters regsV0) 0x8007).isOk = true ∧
      regsV0 0 ≥ regsV0 0 ∧
      (DecodeExecuteOpcode 0 (withRegisters regsV0) 0x8007).machine.Registers 0xF = 0 ∧
      (DecodeExecuteOpcode 0 (withRegisters regsV0) 0x8007).machine.Registers 0xF ≠
        (if regsV0 0 ≥ regsV0 0 then 1 else 0)) ∧
    (WellFormed (withRegisters regsMixed) ∧
      (DecodeExecuteOpcode 0 (withRegisters regsMixed) 0x8F07).isOk = true ∧
      ((regsMixed 0 : Int) - (regsMixed 0xF : Int)) % 256 = 254 ∧
      (DecodeExecuteOpcode 0 (withRegisters regsMixed) 0x8F07).machine.Registers 0xF = 0 ∧
      ((DecodeExecuteOpcode 0 (withRegisters regsMixed) 0x8F07).machine.Registers 0xF : Int) ≠
        ((regsMixed 0 : Int) - (regsMixed 0xF : Int)) % 256) :=
  ⟨⟨wellFormed_withRegisters _ regsV0_byte, by decide, by decide, by decide, by decide⟩,
    ⟨wellFormed_withRegisters _ regsMixed_byte, by decide, by decide, by decide, by decide⟩⟩

/-! ## Load -/

/-- The loop of `Load` when every store is in range: the bytes `data[i..i+k)` are
written at `512+i ..`, nothing else changes. -/
theorem loadLoop_ok (data : List Nat) (k : Nat) :
    ∀ (i : Nat) (vm : VirtualMachine), 512 + i + k ≤ 4096 →
      loadLoop data k i vm = Result.ok
        { vm with
          Memory := fun a =>
            if 512 + i ≤ a ∧ a < 512 + i + k then data.getD (a - 512) 0 else vm.Memory a } := by
  induction k with
  | zero =>
    intro i vm _
    have hm : (fun a => if 512 + i ≤ a ∧ a < 512 + i + 0 then data.getD (a - 512) 0
        else vm.Memory a) = vm.Memory := by
      funext a
      rw [if_neg (by omega)]
    simp only [loadLoop, hm]
  | succ k ih =>
    intro i vm h
    rw [loadLoop, if_pos (by omega), ih (i + 1) _ (by omega)]
    congr 2
    funext a
    by_cases ha : a = 512 + i
    · subst ha
      rw [if_neg (by omega), if_pos (by omega)]
      simp
    · by_cases hr : 512 + (i + 1) ≤ a ∧ a < 512 + (i + 1) + k
      · rw [if_pos hr, if_pos (by omega)]
      · rw [if_neg hr, if_neg (by omega)]
        simp [Function.update_apply, ha]

/-- The loop of `Load` when the data run past the end of memory: the stores up to
address 4095 are made, then the store at 4096 panics. -/
theorem loadLoop_panic (data : List Nat) (k : Nat) :
    ∀ (i : Nat) (vm : VirtualMachine), 512 + i ≤ 4096 → 4096 < 512 + i + k →
      loadLoop data k i vm = Result.panic
        { vm with
          Memory := fun a =>
            if 512 + i ≤ a ∧ a < 4096 then data.getD (a - 512) 0 else vm.Memory a } := by
  induction k with
  | zero =>
    intro i vm h1 h2
    omega
  | succ k ih =>
    intro i vm h1 h2
    by_cases hi : 512 + i < 4096
    · rw [loadLoop, if_pos hi, ih (i + 1) _ (by omega) (by omega)]
      congr 2
      funext a
      by_cases ha : a = 512 + i
      · subst ha
        rw [if_neg (by omega), if_pos (by omega)]
        simp
      · by_cases hr : 512 + (i + 1) ≤ a ∧ a < 4096
        · rw [if_pos hr, if_pos (by omega)]
        · rw [if_neg hr, if_neg (by omega)]
          simp [Function.update_apply, ha]
    · have hm : (fun a => if 512 + i ≤ a ∧ a < 4096 then data.getD (a - 512) 0
          else vm.Memory a) = vm.Memory := by
        funext a
        rw [if_neg (by omega)]
      rw [loadLoop, if_neg hi, hm]

theorem romTooLong_length : romTooLong.length = 3585 :=
  List.length_replicate _ _

/-- C5: a ROM of at most 4096 - 0x200 bytes is loaded: `Load` returns, the bytes
are in memory from 0x200 on, every other memory byte is unchanged, and the
program counter is 0x200. -/
theorem load_fits (vm : VirtualMachine) (data : List Nat)
    (hL : data.length ≤ 4096 - 0x200) :
    ∃ vm', Load vm data = Result.ok vm' ∧
      (∀ i, i < data.length → data[i]? = some (vm'.Memory (0x200 + i))) ∧
      (∀ a, a < 0x200 ∨ 0x200 + data.length ≤ a → vm'.Memory a = vm.Memory a) ∧
      vm'.ProgramCounter = 0x200 := by
  have h := loadLoop_ok data data.length 0 vm (by omega)
  simp only [Load, h]
  refine ⟨_, rfl, ?_, ?_, rfl⟩
  · intro i hi
    simp only []
    rw [if_pos (by omega)]
    simp [List.getD_eq_getElem?_getD, List.getElem?_eq_getElem hi]
  · intro a ha
    simp only []
    rw [if_neg (by omega)]

/-- C5, witness: the two-byte ROM `0x6A, 0x05` loaded into the fresh machine. -/
theorem load_fits_witness :
    [0x6A, 0x05].length ≤ 4096 - 0x200 ∧
    ∃ vm', Load CreateVirtualMachine [0x6A, 0x05] = Result.ok vm' ∧
      (∀ i, i < [0x6A, 0x05].length → [0x6A, 0x05][i]? = some (vm'.Memory (0x200 + i))) ∧
      (∀ a, a < 0x200 ∨ 0x200 + [0x6A, 0x05].length ≤ a →
        vm'.Memory a = CreateVirtualMachine.Memory a) ∧
      vm'.ProgramCounter = 0x200 :=
  ⟨by decide, load_fits CreateVirtualMachine [0x6A, 0x05] (by decide)⟩

/-- C6, as amended: for a ROM of more than 4096 - 0x200 bytes `Load` panics (the
store at index 4096 is out of range) after having copied the first 3584 bytes
into memory from 0x200 on; memory below 0x200 is unchanged and the program
counter is not set. -/
theorem load_too_long (vm : VirtualMachine) (data : List Nat)
    (hL : data.length > 4096 - 0x200) :
    ∃ vm', Load vm data = Result.panic vm' ∧
      (∀ i, i < 4096 - 0x200 → data[i]? = some (vm'.Memory (0x200 + i))) ∧
      (∀ a, a < 0x200 → vm'.Memory a = vm.Memory a) ∧
      vm'.ProgramCounter = vm.ProgramCounter := by
  have h := loadLoop_panic data data.length 0 vm (by omega) (by omega)
  simp only [Load, h]
  refine ⟨_, rfl, ?_, ?_, rfl⟩
  · intro i hi
    simp only []
    rw [if_pos (by omega)]
    have hi' : i < data.length := by omega
    simp [List.getD_eq_getElem?_getD, List.getElem?_eq_getElem hi']
  · intro a ha
    simp only []
    rw [if_neg (by omega)]

/-- C6, witness: the ROM of 3585 bytes. -/
theorem load_too_long_witness :
    romTooLong.length > 4096 - 0x200 ∧
    ∃ vm', Load CreateVirtualMachine romTooLong = Result.panic vm' ∧
      (∀ i, i < 4096 - 0x200 → romTooLong[i]? = some (vm'.Memory (0x200 + i))) ∧
      (∀ a, a < 0x200 → vm'.Memory a = CreateVirtualMachine.Memory a) ∧
      vm'.ProgramCounter = CreateVirtualMachine.ProgramCounter :=
  ⟨by rw [romTooLong_length]; decide,
    load_too_long CreateVirtualMachine romTooLong (by rw [romTooLong_length]; decide)⟩

/-- C6, as stated, fails for the ROM of 3585 bytes 1 loaded into the fresh
machine: the call panics, and memory byte 0x200, which was 0, is 1 at the panic. -/
theorem load_too_long_counterexample :
    romTooLong.length = 3585 ∧
    (Load CreateVirtualMachine romTooLong).isOk = false ∧
    CreateVirtualMachine.Memory 0x200 = 0 ∧
    (Load CreateVirtualMachine romTooLong).machine.Memory 0x200 = 1 ∧
    (Load CreateVirtualMachine romTooLong).machine.Memory 0x200 ≠
      CreateVirtualMachine.Memory 0x200 := by
  have hlen : romTooLong.length = 3585 := romTooLong_length
  have h := loadLoop_panic romTooLong romTooLong.length 0 CreateVirtualMachine
    (by omega) (by omega)
  have h1 : (Load CreateVirtualMachine romTooLong).machine.Memory 0x200 = 1 := by
    simp only [Load, h, Result.machine]
    rw [if_pos (by omega)]
    rfl
  refine ⟨hlen, ?_, by decide, h1, ?_⟩
  · simp only [Load, h, Result.isOk]
  · rw [h1]
    decide

/-! ## Call and return -/

/-- C7: a call 0x2NNN executed with the program counter at `p`, immediately
followed by a return 0x00EE, leaves the program counter at `p` and the stack as
it was before the call (the whole machine is as before the call). -/
theorem call_then_return (rnd1 rnd2 : Nat) (vm : VirtualMachine) (nnn : Nat)
    (hnnn : nnn < 4096) :
    ∃ vm1 vm2, DecodeExecuteOpcode rnd1 vm (0x2000 + nnn) = Result.ok vm1 ∧
      vm1.ProgramCounter = nnn ∧
      DecodeExecuteOpcode rnd2 vm1 0x00EE = Result.ok vm2 ∧
      vm2.ProgramCounter = vm.ProgramCounter ∧
      vm2.Stack = vm.Stack ∧
      vm2 = vm := by
  rw [decode_family2 rnd1 vm _ (by omega)]
  refine ⟨_, vm, rfl, by simp only []; omega, ?_, rfl, rfl, rfl⟩
  rw [decode_family0 rnd2 _ _ (by decide)]
  unfold exec0
  rw [if_neg (by decide), if_pos (by decide), if_pos (by simp)]
  simp

/-- C7, witness: call 0x2300 from the fresh machine. -/
theorem call_then_return_witness :
    0x300 < 4096 ∧
    ∃ vm1 vm2, DecodeExecuteOpcode 0 CreateVirtualMachine (0x2000 + 0x300) = Result.ok vm1 ∧
      vm1.ProgramCounter = 0x300 ∧
      DecodeExecuteOpcode 0 vm1 0x00EE = Result.ok vm2 ∧
      vm2.ProgramCounter = CreateVirtualMachine.ProgramCounter ∧
      vm2.Stack = CreateVirtualMachine.Stack ∧
      vm2 = CreateVirtualMachine :=
  ⟨by decide, call_then_return 0 0 CreateVirtualMachine 0x300 (by decide)⟩

/-! ## Binary-coded decimal -/

/-- C8: with the three target addresses inside memory, 0xFX33 writes the
hundreds, tens and ones digits of register X at `I`, `I+1`, `I+2` and changes no
other memory byte. -/
theorem bcd_FX33 (rnd : Nat) (vm : VirtualMachine) (x : Nat) (hx : x < 16)
    (hI : vm.IndexRegister + 2 < 4096) :
    ∃ vm', DecodeExecuteOpcode rnd vm (0xF033 + 0x100 * x) = Result.ok vm' ∧
      vm'.Memory (vm.IndexRegister + 1) < 10 ∧
      vm'.Memory (vm.IndexRegister + 2) < 10 ∧
      100 * vm'.Memory vm.IndexRegister + 10 * vm'.Memory (vm.IndexRegister + 1)
        + vm'.Memory (vm.IndexRegister + 2) = vm.Registers x ∧
      (vm.Registers x < 256 → vm'.Memory vm.IndexRegister ≤ 2) ∧
      (∀ a, a ≠ vm.IndexRegister → a ≠ vm.IndexRegister + 1 → a ≠ vm.IndexRegister + 2 →
        vm'.Memory a = vm.Memory a) := by
  rw [decode_familyF rnd vm _ (by omega)]
  have h1 : (0xF033 + 0x100 * x) / 256 % 16 = x := by omega
  have h2 : (0xF033 + 0x100 * x) % 256 = 0x33 := by omega
  rw [h1, h2]
  unfold execF
  rw [if_neg (by decide), if_neg (by decide), if_neg (by decide), if_neg (by decide),
    if_neg (by decide), if_neg (by decide), if_pos (by decide)]
  have e1 : (vm.IndexRegister + 1) % 65536 = vm.IndexRegister + 1 := by omega
  have e2 : (vm.IndexRegister + 2) % 65536 = vm.IndexRegister + 2 := by omega
  simp only [e1, e2]
  rw [if_pos (by omega), if_pos (by omega), if_pos (by omega)]
  refine ⟨_, rfl, ?_, ?_, ?_, ?_, ?_⟩
  · simp only [Function.update_apply]
    split_ifs <;> omega
  · simp only [Function.update_apply]
    split_ifs <;> omega
  · simp only [Function.update_apply]
    split_ifs <;> omega
  · intro hv
    simp only [Function.update_apply]
    split_ifs <;> omega
  · intro a ha0 ha1 ha2
    simp only [Function.update_apply]
    rw [if_neg ha2, if_neg ha1, if_neg ha0]

/-- C8, witness: register 0 = 255, index register 0. -/
theorem bcd_FX33_witness :
    (0 < 16 ∧ (withRegisters regsFF).IndexRegister + 2 < 4096) ∧
    ∃ vm', DecodeExecuteOpcode 0 (withRegisters regsFF) (0xF033 + 0x100 * 0) = Result.ok vm' ∧
      vm'.Memory ((withRegisters regsFF).IndexRegister + 1) < 10 ∧
      vm'.Memory ((withRegisters regsFF).IndexRegister + 2) < 10 ∧
      100 * vm'.Memory (withRegisters regsFF).IndexRegister
        + 10 * vm'.Memory ((withRegisters regsFF).IndexRegister + 1)
        + vm'.Memory ((withRegisters regsFF).IndexRegister + 2)
        = (withRegisters regsFF).Registers 0 ∧
      ((withRegisters regsFF).Registers 0 < 256 →
        vm'.Memory (withRegisters regsFF).IndexRegister ≤ 2) ∧
      (∀ a, a ≠ (withRegisters regsFF).IndexRegister →
        a ≠ (withRegisters regsFF).IndexRegister + 1 →
        a ≠ (withRegisters regsFF).IndexRegister + 2 →
        vm'.Memory a = (withRegisters regsFF).Memory a) :=
  ⟨⟨by decide, by decide⟩, bcd_FX33 0 (withRegisters regsFF) 0 (by decide) (by decide)⟩

/-- The two values named by the specification: 255 gives (2, 5, 5) and 0 gives
(0, 0, 0). -/
theorem bcd_FX33_values :
    ((DecodeExecuteOpcode 0 (withRegisters regsFF) 0xF033).machine.Memory 0 = 2 ∧
      (DecodeExecuteOpcode 0 (withRegisters regsFF) 0xF033).machine.Memory 1 = 5 ∧
      (DecodeExecuteOpcode 0 (withRegisters regsFF) 0xF033).machine.Memory 2 = 5) ∧
    ((DecodeExecuteOpcode 0 CreateVirtualMachine 0xF033).machine.Memory 0 = 0 ∧
      (DecodeExecuteOpcode 0 CreateVirtualMachine 0xF033).machine.Memory 1 = 0 ∧
      (DecodeExecuteOpcode 0 CreateVirtualMachine 0xF033).machine.Memory 2 = 0) := by
  decide

/-! ## One tick of the instruction loop -/

/-- The word fetched from the bytes `0x60 | X` and `NN`. -/
theorem word_6XNN (x nn : Nat) (hx : x < 16) (hnn : nn < 256) :
    (((0x60 ||| x) <<< 8) % 65536) ||| nn = 0x6000 + 0x100 * x + nn := by
  have h1 : (0x60 : Nat) ||| x = 0x60 + x := by
    have : (0x60 : Nat) = 2 ^ 4 * 6 := by decide
    rw [this, Nat.mul_add_lt_is_or (by simpa using hx)]
  rw [h1, Nat.shiftLeft_eq]
  have h2 : (0x60 + x) * 2 ^ 8 % 65536 = 2 ^ 8 * (0x60 + x) := by omega
  rw [h2, ← Nat.mul_add_lt_is_or (by simpa using hnn)]
  omega

/-- C9: with the program counter `p` at most 4094 and the bytes `0x60 | X`, `NN`
at `p`, `p+1`, one tick of the instruction loop sets register X to NN and the
program counter to `p + 2` and changes nothing else. -/
theorem tick_6XNN (rnd : Nat) (vm : VirtualMachine) (x nn : Nat)
    (hx : x < 16) (hnn : nn < 256) (hp : vm.ProgramCounter ≤ 4094)
    (h1 : vm.Memory vm.ProgramCounter = 0x60 ||| x)
    (h2 : vm.Memory (vm.ProgramCounter + 1) = nn) :
    startMachineTick rnd vm = Result.ok
      { vm with
        Registers := Function.update vm.Registers x nn
        ProgramCounter := vm.ProgramCounter + 2 } := by
  have e1 : (vm.ProgramCounter + 1) % 65536 = vm.ProgramCounter + 1 := by omega
  have e2 : (vm.ProgramCounter + 2) % 65536 = vm.ProgramCounter + 2 := by omega
  have hf : FetchOpcode vm = some (0x6000 + 0x100 * x + nn, incrementPC vm) := by
    unfold FetchOpcode getOpcode
    rw [if_pos (by omega), e1, if_pos (by omega), h1, h2]
    simp only []
    rw [word_6XNN x nn hx hnn]
  unfold startMachineTick
  rw [hf]
  simp only []
  rw [decode_family6 rnd _ _ (by omega)]
  have d1 : (0x6000 + 0x100 * x + nn) / 256 % 16 = x := by omega
  have d2 : (0x6000 + 0x100 * x + nn) % 256 % 256 = nn := by omega
  rw [d1, d2]
  simp only [incrementPC, e2]

/-- C9, witness: the program `0x6A, 0x05` loaded at 0x200 gives register A = 5
and program counter 0x202. -/
theorem tick_6XNN_witness :
    (0xA < 16 ∧ 0x05 < 256 ∧ vmSetA.ProgramCounter ≤ 4094 ∧
      vmSetA.Memory vmSetA.ProgramCounter = 0x60 ||| 0xA ∧
      vmSetA.Memory (vmSetA.ProgramCounter + 1) = 0x05) ∧
    vmSetA.ProgramCounter = 0x200 ∧
    startMachineTick 0 vmSetA = Result.ok
      { vmSetA with
        Registers := Function.update vmSetA.Registers 0xA 0x05
        ProgramCounter := vmSetA.ProgramCounter + 2 } :=
  ⟨⟨by decide, by decide, by decide, by decide, by decide⟩, by decide,
    tick_6XNN 0 vmSetA 0xA 0x05 (by decide) (by decide) (by decide) (by decide) (by decide)⟩

/-- The scenario of the specification evaluated: register A is 5 and the program
counter is 0x202 after the tick. -/
theorem tick_6XNN_values :
    (startMachineTick 0 vmSetA).isOk = true ∧
    (startMachineTick 0 vmSetA).machine.Registers 0xA = 5 ∧
    (startMachineTick 0 vmSetA).machine.ProgramCounter = 0x202 := by
  decide

/-! ## The timer tick -/

/-- C10, as amended: with the sound timer at 1, one `Tick` leaves it at 0 and
prints BEEP exactly once; a further `Tick` leaves it at 0 and prints BEEP once
more (every call that ends with the sound timer at 0 prints BEEP). -/
theorem tick_sound_timer_one (vm : VirtualMachine) (h : vm.SoundTimer = 1) :
    (Tick vm).1.SoundTimer = 0 ∧ (Tick vm).2 = ["BEEP"] ∧
    (Tick (Tick vm).1).1.SoundTimer = 0 ∧ (Tick (Tick vm).1).2 = ["BEEP"] := by
  have key : ∀ v : VirtualMachine, v.SoundTimer ≤ 1 →
      (Tick v).1.SoundTimer = 0 ∧ (Tick v).2 = ["BEEP"] := by
    intro v hv
    unfold Tick
    by_cases hd : v.DelayTimer > 0 <;> by_cases hs : v.SoundTimer > 0
    all_goals simp only [hd, hs, if_true, if_false]
    all_goals first
      | (have h0 : v.SoundTimer - 1 = 0 := by omega
         simp only [h0, if_true]
         exact ⟨trivial, trivial⟩)
      | (have h0 : v.SoundTimer = 0 := by omega
         simp only [h0, if_true]
         exact ⟨trivial, trivial⟩)
  have k1 := key vm (by omega)
  have k2 := key (Tick vm).1 (by omega)
  exact ⟨k1.1, k1.2, k2.1, k2.2⟩

/-- C10, witness: the fresh machine with the sound timer at 1. -/
theorem tick_sound_timer_one_witness :
    vmSound1.SoundTimer = 1 ∧
    (Tick vmSound1).1.SoundTimer = 0 ∧ (Tick vmSound1).2 = ["BEEP"] ∧
    (Tick (Tick vmSound1).1).1.SoundTimer = 0 ∧ (Tick (Tick vmSound1).1).2 = ["BEEP"] :=
  ⟨rfl, tick_sound_timer_one vmSound1 rfl⟩

/-- C10, as stated, fails for the fresh machine with the sound timer at 1: the
second `Tick` finds the timer at 0 and prints BEEP again. -/
theorem tick_sound_timer_one_counterexample :
    vmSound1.SoundTimer = 1 ∧
    (Tick vmSound1).1.SoundTimer = 0 ∧
    (Tick (Tick vmSound1).1).2 = ["BEEP"] ∧
    (Tick (Tick vmSound1).1).2 ≠ [] := by
  decide

/-! ## The sprite draw -/

theorem drawBit_eq_plot (xCoord yCoord byteIndex spriteRow : Nat) (vm : VirtualMachine)
    (bitIndex : Nat) :
    drawBit xCoord yCoord byteIndex spriteRow vm bitIndex =
      plot vm { col := (xCoord + bitIndex) % 64
                row := (yCoord + byteIndex) % 32
                bit := (spriteRow >>> (8 - bitIndex - 1)) &&& 0x1 } := by
  have hx : (xCoord + bitIndex) % 65536 % 64 = (xCoord + bitIndex) % 64 := by omega
  have hy : (yCoord + byteIndex) % 65536 % 32 = (yCoord + byteIndex) % 32 := by omega
  unfold drawBit plot
  simp only [screenWidth, screenHeight, hx, hy]
  rw [if_neg (by omega)]

theorem drawRow_eq_foldl (xCoord yCoord byteIndex spriteRow : Nat) (vm : VirtualMachine) :
    drawRow xCoord yCoord byteIndex spriteRow vm =
      (rowPixels xCoord yCoord spriteRow byteIndex).foldl plot vm := by
  unfold drawRow rowPixels
  rw [List.foldl_map]
  congr 1
  funext v b
  exact drawBit_eq_plot xCoord yCoord byteIndex spriteRow v b

theorem plot_Display (vm : VirtualMachine) (p : Pixel) (cx cy : Nat) :
    (plot vm p).Display cx cy =
      vm.Display cx cy ^^^ (if p.col = cx ∧ p.row = cy then p.bit else 0) := by
  unfold plot
  by_cases hc : p.col = cx
  · by_cases hr : p.row = cy
    · subst hc hr
      split_ifs <;> simp_all
    · have hr' : cy ≠ p.row := fun h => hr h.symm
      subst hc
      split_ifs <;> simp_all [Function.update_apply]
  · have hc' : cx ≠ p.col := fun h => hc h.symm
    split_ifs <;> simp_all [Function.update_apply]

theorem plot_Registers (vm : VirtualMachine) (p : Pixel) :
    (plot vm p).Registers =
      if p.bit = 1 ∧ vm.Display p.col p.row = 1 then Function.update vm.Registers 0xF 1
      else vm.Registers := by
  unfold plot
  split_ifs <;> rfl

theorem plot_Memory (vm : VirtualMachine) (p : Pixel) : (plot vm p).Memory = vm.Memory := by
  unfold plot
  split_ifs <;> rfl

theorem plot_IndexRegister (vm : VirtualMachine) (p : Pixel) :
    (plot vm p).IndexRegister = vm.IndexRegister := by
  unfold plot
  split_ifs <;> rfl

theorem foldl_plot_Memory (ps : List Pixel) :
    ∀ vm : VirtualMachine, (ps.foldl plot vm).Memory = vm.Memory := by
  induction ps with
  | nil => intro vm; rfl
  | cons p ps ih => intro vm; rw [List.foldl_cons, ih, plot_Memory]

theorem foldl_plot_IndexRegister (ps : List Pixel) :
    ∀ vm : VirtualMachine, (ps.foldl plot vm).IndexRegister = vm.IndexRegister := by
  induction ps with
  | nil => intro vm; rfl
  | cons p ps ih => intro vm; rw [List.foldl_cons, ih, plot_IndexRegister]

/-- Registers other than 0xF are not written by the pixel operations. -/
theorem foldl_plot_Registers_ne (ps : List Pixel) (i : Nat) (hi : i ≠ 0xF) :
    ∀ vm : VirtualMachine, (ps.foldl plot vm).Registers i = vm.Registers i := by
  induction ps with
  | nil => intro vm; rfl
  | cons p ps ih =>
    intro vm
    rw [List.foldl_cons, ih, plot_Registers]
    split_ifs
    · simp [Function.update_apply, hi]
    · rfl

/-- Once register 0xF is 1 it stays 1. -/
theorem foldl_plot_flag_stays (ps : List Pixel) :
    ∀ vm : VirtualMachine, vm.Registers 0xF = 1 → (ps.foldl plot vm).Registers 0xF = 1 := by
  induction ps with
  | nil => intro vm h; exact h
  | cons p ps ih =>
    intro vm h
    rw [List.foldl_cons]
    apply ih
    rw [plot_Registers]
    split_ifs
    · simp
    · exact h

/-- The display after a list of pixel operations: each cell is the exclusive or
of its old value and of the sprite bits sent to it. -/
theorem foldl_plot_Display (ps : List Pixel) (cx cy : Nat) :
    ∀ vm : VirtualMachine,
      (ps.foldl plot vm).Display cx cy = vm.Display cx cy ^^^ xorMask ps cx cy := by
  induction ps with
  | nil => intro vm; simp [xorMask]
  | cons p ps ih =>
    intro vm
    rw [List.foldl_cons, ih, plot_Display, xorMask, Nat.xor_assoc]

/-- No pixel operation at a cell: the mask there is 0. -/
theorem xorMask_eq_zero (ps : List Pixel) (cx cy : Nat)
    (h : ∀ p ∈ ps, ¬ (p.col = cx ∧ p.row = cy)) : xorMask ps cx cy = 0 := by
  induction ps with
  | nil => rfl
  | cons p ps ih =>
    rw [xorMask, if_neg (h p (List.mem_cons_self _ _)),
      ih (fun q hq => h q (List.mem_cons_of_mem _ hq))]
    rfl

/-- With pairwise distinct target cells, a nonzero mask at a cell is the sprite
bit of the operation on that cell. -/
theorem xorMask_ne_zero (ps : List Pixel) (cx cy : Nat)
    (hd : ps.Pairwise fun p q => ¬ (p.col = q.col ∧ p.row = q.row))
    (h : xorMask ps cx cy ≠ 0) :
    ∃ p ∈ ps, p.col = cx ∧ p.row = cy ∧ p.bit = xorMask ps cx cy := by
  induction ps with
  | nil => exact absurd rfl h
  | cons p ps ih =>
    rw [List.pairwise_cons] at hd
    by_cases hp : p.col = cx ∧ p.row = cy
    · have hz : xorMask ps cx cy = 0 := by
        apply xorMask_eq_zero
        intro q hq hqc
        exact hd.1 q hq ⟨hp.1.trans hqc.1.symm, hp.2.trans hqc.2.symm⟩
      refine ⟨p, List.mem_cons_self _ _, hp.1, hp.2, ?_⟩
      rw [xorMask, if_pos hp, hz, Nat.xor_zero]
    · have he : xorMask (p :: ps) cx cy = xorMask ps cx cy := by
        rw [xorMask, if_neg hp, Nat.zero_xor]
      rw [he] at h ⊢
      obtain ⟨q, hq, h1, h2, h3⟩ := ih hd.2 h
      exact ⟨q, List.mem_cons_of_mem _ hq, h1, h2, h3⟩

/-- With pairwise distinct target cells, an operation with sprite bit 1 on a cell
that holds 1 before the draw sets register 0xF to 1. -/
theorem foldl_plot_collision (ps : List Pixel)
    (hd : ps.Pairwise fun p q => ¬ (p.col = q.col ∧ p.row = q.row)) :
    ∀ vm : VirtualMachine, ∀ p ∈ ps, p.bit = 1 → vm.Display p.col p.row = 1 →
      (ps.foldl plot vm).Registers 0xF = 1 := by
  induction ps with
  | nil => intro vm p hp; cases hp
  | cons q ps ih =>
    intro vm p hp hb hcell
    rw [List.pairwise_cons] at hd
    rw [List.foldl_cons]
    rcases List.mem_cons.mp hp with rfl | hmem
    · apply foldl_plot_flag_stays
      rw [plot_Registers, if_pos ⟨hb, hcell⟩]
      simp
    · apply ih hd.2 (plot vm q) p hmem hb
      rw [plot_Display, if_neg (hd.1 p hmem), Nat.xor_zero]
      exact hcell

theorem spritePixels_succ (xCoord yCoord : Nat) (mem : Nat → Nat) (index r0 k : Nat) :
    spritePixels xCoord yCoord mem index r0 (k + 1) =
      rowPixels xCoord yCoord (mem ((index + r0) % 65536)) r0 ++
        spritePixels xCoord yCoord mem index (r0 + 1) k := by
  unfold spritePixels
  rw [List.range'_succ, List.flatMap_cons]

/-- The outer loop of the draw when every sprite byte read is in range: it
returns, and its effect is that of the pixel operations in loop order. -/
theorem drawLoop_ok (xCoord yCoord : Nat) (k : Nat) :
    ∀ (r0 : Nat) (vm : VirtualMachine),
      (∀ r, r0 ≤ r → r < r0 + k → (vm.IndexRegister + r) % 65536 < 4096) →
      drawLoop xCoord yCoord k r0 vm = Result.ok
        ((spritePixels xCoord yCoord vm.Memory vm.IndexRegister r0 k).foldl plot vm) := by
  induction k with
  | zero =>
    intro r0 vm _
    simp [drawLoop, spritePixels]
  | succ k ih =>
    intro r0 vm h
    rw [drawLoop]
    simp only []
    rw [if_pos (h r0 (le_refl _) (by omega)), drawRow_eq_foldl, ih]
    · rw [foldl_plot_Memory, foldl_plot_IndexRegister, spritePixels_succ, List.foldl_append]
    · intro r hr1 hr2
      rw [foldl_plot_IndexRegister]
      exact h r (by omega) (by omega)

/-- The pixel operations of one row have pairwise distinct target cells. -/
theorem rowPixels_pairwise (xCoord yCoord spriteRow byteIndex : Nat) :
    (rowPixels xCoord yCoord spriteRow byteIndex).Pairwise
      fun p q => ¬ (p.col = q.col ∧ p.row = q.row) := by
  unfold rowPixels
  rw [List.pairwise_map]
  refine List.Pairwise.imp_of_mem ?_ (List.pairwise_lt_range 8)
  intro a b ha hb hab hcell
  rw [List.mem_range] at ha hb
  have := hcell.1
  simp only [] at this
  omega

theorem mem_rowPixels_row (xCoord yCoord spriteRow byteIndex : Nat) (p : Pixel)
    (hp : p ∈ rowPixels xCoord yCoord spriteRow byteIndex) :
    p.row = (yCoord + byteIndex) % 32 := by
  unfold rowPixels at hp
  rw [List.mem_map] at hp
  obtain ⟨b, _, rfl⟩ := hp
  rfl

/-- The pixel operations of at most 32 sprite rows have pairwise distinct target
cells: no cell is written twice in one draw. -/
theorem spritePixels_pairwise (xCoord yCoord : Nat) (mem : Nat → Nat) (index r0 k : Nat)
    (hk : k ≤ 32) :
    (spritePixels xCoord yCoord mem index r0 k).Pairwise
      fun p q => ¬ (p.col = q.col ∧ p.row = q.row) := by
  unfold spritePixels
  rw [List.pairwise_flatMap]
  refine ⟨fun r _ => rowPixels_pairwise _ _ _ _, ?_⟩
  refine List.Pairwise.imp_of_mem ?_ (List.pairwise_lt_range' r0 k)
  intro a b ha hb hab p hp q hq hcell
  rw [List.mem_range'_1] at ha hb
  have h1 := mem_rowPixels_row _ _ _ _ p hp
  have h2 := mem_rowPixels_row _ _ _ _ q hq
  have h3 := hcell.2
  omega

/-- The sprite draw when the `n` sprite bytes lie inside memory: register 0xF is
reset, then the pixel operations are applied. -/
theorem execD_ok (vm : VirtualMachine) (x y n : Nat) (hI : vm.IndexRegister + n ≤ 4096) :
    execD vm x y n = Result.ok
      ((spritePixels (vm.Registers x) (vm.Registers y) vm.Memory vm.IndexRegister 0 n).foldl
        plot { vm with Registers := Function.update vm.Registers 0xF 0 }) := by
  unfold execD
  simp only []
  rw [drawLoop_ok]
  intro r _ hr
  simp only []
  omega

/-- Decoding of a word of family 0xD000 assembled from its fields. -/
theorem decode_DXYN (rnd : Nat) (vm : VirtualMachine) (x y n : Nat)
    (hx : x < 16) (hy : y < 16) (hn : n < 16) :
    DecodeExecuteOpcode rnd vm (0xD000 + 0x100 * x + 0x10 * y + n) = execD vm x y n := by
  rw [decode_familyD rnd vm _ (by omega)]
  have h1 : (0xD000 + 0x100 * x + 0x10 * y + n) / 256 % 16 = x := by omega
  have h2 : (0xD000 + 0x100 * x + 0x10 * y + n) / 16 % 16 = y := by omega
  have h3 : (0xD000 + 0x100 * x + 0x10 * y + n) % 16 = n := by omega
  rw [h1, h2, h3]

/-- C4: with the `n` sprite bytes inside memory, two consecutive draws 0xDXYN
both return; when the second draw has the origin of the first (registers X and Y
hold the same values before both, which is always so for X and Y other than 0xF)
the display after the second draw is the display before the first, and register
0xF is 1 after the second draw whenever the first draw turned a cell from 0 to 1.
The display need not be binary for this. -/
theorem draw_twice_restores (rnd1 rnd2 : Nat) (vm : VirtualMachine) (x y n : Nat)
    (hx : x < 16) (hy : y < 16) (hn : n < 16) (hI : vm.IndexRegister + n ≤ 4096) :
    ∃ vm1 vm2,
      DecodeExecuteOpcode rnd1 vm (0xD000 + 0x100 * x + 0x10 * y + n) = Result.ok vm1 ∧
      DecodeExecuteOpcode rnd2 vm1 (0xD000 + 0x100 * x + 0x10 * y + n) = Result.ok vm2 ∧
      (x ≠ 0xF → y ≠ 0xF →
        vm1.Registers x = vm.Registers x ∧ vm1.Registers y = vm.Registers y) ∧
      (vm1.Registers x = vm.Registers x → vm1.Registers y = vm.Registers y →
        vm2.Display = vm.Display ∧
        ((∃ cx cy, vm.Display cx cy = 0 ∧ vm1.Display cx cy = 1) →
          vm2.Registers 0xF = 1)) := by
  obtain ⟨vm1, hvm1⟩ : ∃ v, v =
      (spritePixels (vm.Registers x) (vm.Registers y) vm.Memory vm.IndexRegister 0 n).foldl
        plot { vm with Registers := Function.update vm.Registers 0xF 0 } := ⟨_, rfl⟩
  have hM : vm1.Memory = vm.Memory := by rw [hvm1, foldl_plot_Memory]
  have hIx : vm1.IndexRegister = vm.IndexRegister := by rw [hvm1, foldl_plot_IndexRegister]
  have hD : ∀ cx cy, vm1.Display cx cy = vm.Display cx cy ^^^
      xorMask (spritePixels (vm.Registers x) (vm.Registers y) vm.Memory vm.IndexRegister 0 n)
        cx cy := by
    intro cx cy
    rw [hvm1, foldl_plot_Display]
  have e1 : DecodeExecuteOpcode rnd1 vm (0xD000 + 0x100 * x + 0x10 * y + n) = Result.ok vm1 := by
    rw [decode_DXYN rnd1 vm x y n hx hy hn, execD_ok vm x y n hI, hvm1]
  have e2 := (decode_DXYN rnd2 vm1 x y n hx hy hn).trans
    (execD_ok vm1 x y n (by rw [hIx]; exact hI))
  refine ⟨vm1, _, e1, e2, ?_, ?_⟩
  · intro hxF hyF
    rw [hvm1, foldl_plot_Registers_ne _ x hxF, foldl_plot_Registers_ne _ y hyF]
    simp only [Function.update_apply, hxF, hyF, if_false]
    exact ⟨trivial, trivial⟩
  · intro hsx hsy
    rw [hsx, hsy, hM, hIx]
    have hd := spritePixels_pairwise (vm.Registers x) (vm.Registers y) vm.Memory
      vm.IndexRegister 0 n (by omega)
    constructor
    · funext cx cy
      rw [foldl_plot_Display]
      simp only []
      rw [hD, Nat.xor_assoc, Nat.xor_self, Nat.xor_zero]
    · rintro ⟨cx, cy, h0, h1⟩
      have hm := hD cx cy
      rw [h0, Nat.zero_xor, h1] at hm
      obtain ⟨p, hp, hc, hr, hb⟩ := xorMask_ne_zero _ cx cy hd (by rw [← hm]; decide)
      apply foldl_plot_collision _ hd _ p hp (by rw [hb, ← hm])
      simp only []
      rw [hc, hr]
      exact h1

/-- C4, witness: the glyph of digit 0 (five bytes at address 0) drawn twice at
the origin (`V0`, `V1`) = (3, 200) on the empty display. -/
theorem draw_twice_restores_witness :
    (0 < 16 ∧ 1 < 16 ∧ 5 < 16 ∧ (withRegisters regsMixed).IndexRegister + 5 ≤ 4096) ∧
    ∃ vm1 vm2,
      DecodeExecuteOpcode 0 (withRegisters regsMixed) (0xD000 + 0x100 * 0 + 0x10 * 1 + 5)
        = Result.ok vm1 ∧
      DecodeExecuteOpcode 0 vm1 (0xD000 + 0x100 * 0 + 0x10 * 1 + 5) = Result.ok vm2 ∧
      (0 ≠ 0xF → 1 ≠ 0xF →
        vm1.Registers 0 = (withRegisters regsMixed).Registers 0 ∧
        vm1.Registers 1 = (withRegisters regsMixed).Registers 1) ∧
      (vm1.Registers 0 = (withRegisters regsMixed).Registers 0 →
        vm1.Registers 1 = (withRegisters regsMixed).Registers 1 →
        vm2.Display = (withRegisters regsMixed).Display ∧
        ((∃ cx cy, (withRegisters regsMixed).Display cx cy = 0 ∧ vm1.Display cx cy = 1) →
          vm2.Registers 0xF = 1)) :=
  ⟨⟨by decide, by decide, by decide, by decide⟩,
    draw_twice_restores 0 0 (withRegisters regsMixed) 0 1 5
      (by decide) (by decide) (by decide) (by decide)⟩

/-- The same two draws evaluated: the first turns the cell (3, 8) on and leaves
register 0xF at 0, the second turns it off again and leaves register 0xF at 1. -/
theorem draw_twice_values :
    (withRegisters regsMixed).Display 3 8 = 0 ∧
    (DecodeExecuteOpcode 0 (withRegisters regsMixed) 0xD015).isOk = true ∧
    (DecodeExecuteOpcode 0 (withRegisters regsMixed) 0xD015).machine.Display 3 8 = 1 ∧
    (DecodeExecuteOpcode 0 (withRegisters regsMixed) 0xD015).machine.Registers 0xF = 0 ∧
    (DecodeExecuteOpcode 0
      (DecodeExecuteOpcode 0 (withRegisters regsMixed) 0xD015).machine 0xD015).isOk = true ∧
    (DecodeExecuteOpcode 0
      (DecodeExecuteOpcode 0 (withRegisters regsMixed) 0xD015).machine 0xD015).machine.Display
        3 8 = 0 ∧
    (DecodeExecuteOpcode 0
      (DecodeExecuteOpcode 0 (withRegisters regsMixed) 0xD015).machine 0xD015).machine.Registers
        0xF = 1 := by
  decide

/-- C16: `Tick` decrements each timer that is positive and leaves a timer at 0
where it is (so neither wraps below 0), and changes no other field. -/
theorem tick_timers_only (vm : VirtualMachine) :
    (Tick vm).1.DelayTimer = (if vm.DelayTimer > 0 then vm.DelayTimer - 1 else 0) ∧
    (Tick vm).1.SoundTimer = (if vm.SoundTimer > 0 then vm.SoundTimer - 1 else 0) ∧
    (Tick vm).1.DelayTimer ≤ vm.DelayTimer ∧
    (Tick vm).1.SoundTimer ≤ vm.SoundTimer ∧
    (Tick vm).1 =
      { vm with
        DelayTimer := (Tick vm).1.DelayTimer
        SoundTimer := (Tick vm).1.SoundTimer } := by
  unfold Tick
  by_cases hd : vm.DelayTimer > 0 <;> by_cases hs : vm.SoundTimer > 0
  all_goals simp only [hd, hs, if_true, if_false]
  all_goals split_ifs
  all_goals refine ⟨?_, ?_, ?_, ?_, rfl⟩
  all_goals simp only []
  all_goals omega

/-! ## The screen clear -/

/-- The inner loop of the screen clear over its first `n` rows. -/
theorem foldl_clearCell (x n : Nat) (vm : VirtualMachine) :
    (List.range n).foldl (clearCell x) vm =
      { vm with Display := fun a b => if a = x ∧ b < n then 0 else vm.Display a b } := by
  induction n with
  | zero =>
    have : (fun a b => if a = x ∧ b < 0 then 0 else vm.Display a b) = vm.Display := by
      funext a b
      rw [if_neg (by omega)]
    simp only [List.range_zero, List.foldl_nil, this]
  | succ n ih =>
    rw [List.range_succ, List.foldl_append, ih]
    simp only [List.foldl_cons, List.foldl_nil, clearCell]
    congr 1
    funext a b
    by_cases ha : a = x
    · subst ha
      by_cases hb : b = n
      · subst hb
        simp
      · by_cases hlt : b < n
        · simp [Function.update_apply, hb, hlt, Nat.lt_succ_of_lt hlt]
        · have : ¬ b < n + 1 := by omega
          simp [Function.update_apply, hb, hlt, this]
    · simp [Function.update_apply, ha]

/-- The outer loop of the screen clear over its first `m` columns. -/
theorem foldl_clearColumn (m : Nat) (vm : VirtualMachine) :
    (List.range m).foldl clearColumn vm =
      { vm with
        Display := fun a b => if a < m ∧ b < screenHeight then 0 else vm.Display a b } := by
  induction m with
  | zero =>
    have : (fun a b => if a < 0 ∧ b < screenHeight then 0 else vm.Display a b)
        = vm.Display := by
      funext a b
      rw [if_neg (by omega)]
    simp only [List.range_zero, List.foldl_nil, this]
  | succ m ih =>
    rw [List.range_succ, List.foldl_append, ih]
    simp only [List.foldl_cons, List.foldl_nil, clearColumn, foldl_clearCell]
    congr 1
    funext a b
    by_cases ha : a = m
    · subst ha
      by_cases hb : b < screenHeight
      · simp [hb]
      · simp [hb]
    · by_cases hlt : a < m
      · have : a < m + 1 := by omega
        simp [ha, hlt, this]
      · have : ¬ a < m + 1 := by omega
        simp [ha, hlt, this]

/-- C17: 0x00E0 returns, every display cell with column below 64 and row below 32
is 0 afterwards, and only the display changes. -/
theorem clear_screen_00E0 (rnd : Nat) (vm : VirtualMachine) :
    ∃ vm', DecodeExecuteOpcode rnd vm 0x00E0 = Result.ok vm' ∧
      (∀ x, x < 64 → ∀ y, y < 32 → vm'.Display x y = 0) ∧
      vm' = { vm with Display := vm'.Display } := by
  rw [decode_family0 rnd vm _ (by decide)]
  unfold exec0
  rw [if_pos (by decide), foldl_clearColumn]
  refine ⟨_, rfl, ?_, rfl⟩
  intro x hx y hy
  simp only [screenWidth, screenHeight]
  rw [if_pos ⟨hx, hy⟩]

/-! ## The key wait 0xFX0A -/

theorem lastPressed_none (keyboard : Nat → Nat) (n : Nat)
    (h : ∀ j, j < n → keyboard j ≠ 1) : lastPressed keyboard n = none := by
  induction n with
  | zero => rfl
  | succ n ih =>
    rw [lastPressed, if_neg (h n (by omega))]
    exact ih (fun j hj => h j (by omega))

theorem lastPressed_some (keyboard : Nat → Nat) (n k : Nat) (hk : k < n)
    (hp : keyboard k = 1) (hmax : ∀ j, k < j → j < n → keyboard j ≠ 1) :
    lastPressed keyboard n = some k := by
  induction n with
  | zero => omega
  | succ n ih =>
    by_cases hkn : k = n
    · subst hkn
      rw [lastPressed, if_pos hp]
    · rw [lastPressed, if_neg (hmax n (by omega) (by omega))]
      exact ih (by omega) (fun j h1 h2 => hmax j h1 (by omega))

/-- The key scan over the keys below `n`: the register is written at every
pressed key, so the last pressed key is the one that stays. -/
theorem foldl_keyScan (x : Nat) (vm : VirtualMachine) (n : Nat) :
    (List.range n).foldl (keyScan x) (vm, false) =
      match lastPressed vm.Keyboard n with
      | none => (vm, false)
      | some k => ({ vm with Registers := Function.update vm.Registers x (k % 256) }, true) := by
  induction n with
  | zero => rfl
  | succ n ih =>
    rw [List.range_succ, List.foldl_append, ih]
    simp only [List.foldl_cons, List.foldl_nil]
    cases hl : lastPressed vm.Keyboard n with
    | none =>
      simp only [keyScan, lastPressed, hl]
      by_cases hp : vm.Keyboard n = 1
      · simp only [hp, if_true]
      · simp only [hp, if_false, hl]
    | some k =>
      simp only [keyScan, lastPressed, hl]
      by_cases hp : vm.Keyboard n = 1
      · simp only [hp, if_true, Function.update_idem]
      · simp only [hp, if_false, hl]

/-- Decoding of the word 0xFX0A. -/
theorem decode_FX0A (rnd : Nat) (vm : VirtualMachine) (x : Nat) (hx : x < 16) :
    DecodeExecuteOpcode rnd vm (0xF00A + 0x100 * x) =
      if ¬ ((List.range 16).foldl (keyScan x) (vm, false)).2 = true then
        Result.ok { ((List.range 16).foldl (keyScan x) (vm, false)).1 with
          ProgramCounter :=
            (((List.range 16).foldl (keyScan x) (vm, false)).1.ProgramCounter + 65536 - 2)
              % 65536 }
      else Result.ok ((List.range 16).foldl (keyScan x) (vm, false)).1 := by
  rw [decode_familyF rnd vm _ (by omega)]
  have h1 : (0xF00A + 0x100 * x) / 256 % 16 = x := by omega
  have h2 : (0xF00A + 0x100 * x) % 256 = 0x0A := by omega
  rw [h1, h2]
  unfold execF
  rw [if_neg (by decide), if_neg (by decide), if_neg (by decide), if_neg (by decide),
    if_pos (by decide)]

/-- C11, as amended: on 0xFX0A, when a key flag is 1, register X receives the
index of the last pressed key in the scan order 0..15 (the highest pressed index)
and nothing else changes; when no key flag is 1 the program counter is decreased
by 2 (modulo 65536) and nothing else changes. -/
theorem key_wait_FX0A (rnd : Nat) (vm : VirtualMachine) (x : Nat) (hx : x < 16) :
    (∀ k, k < 16 → vm.Keyboard k = 1 → (∀ j, k < j → j < 16 → vm.Keyboard j ≠ 1) →
      DecodeExecuteOpcode rnd vm (0xF00A + 0x100 * x) =
        Result.ok { vm with Registers := Function.update vm.Registers x k }) ∧
    ((∀ j, j < 16 → vm.Keyboard j ≠ 1) →
      DecodeExecuteOpcode rnd vm (0xF00A + 0x100 * x) =
        Result.ok { vm with ProgramCounter := (vm.ProgramCounter + 65536 - 2) % 65536 }) := by
  constructor
  · intro k hk hp hmax
    rw [decode_FX0A rnd vm x hx, foldl_keyScan, lastPressed_some vm.Keyboard 16 k hk hp hmax]
    simp only []
    rw [if_neg (by simp), Nat.mod_eq_of_lt (by omega)]
  · intro hnone
    rw [decode_FX0A rnd vm x hx, foldl_keyScan, lastPressed_none vm.Keyboard 16 hnone]
    simp only []
    rw [if_pos (by simp)]

/-- C11, witness: keys 1 and 2 pressed, register 0 receives 2. -/
theorem key_wait_FX0A_witness :
    0 < 16 ∧
    (∀ k, k < 16 → vmKeys12.Keyboard k = 1 →
      (∀ j, k < j → j < 16 → vmKeys12.Keyboard j ≠ 1) →
      DecodeExecuteOpcode 0 vmKeys12 (0xF00A + 0x100 * 0) =
        Result.ok { vmKeys12 with Registers := Function.update vmKeys12.Registers 0 k }) ∧
    ((∀ j, j < 16 → vmKeys12.Keyboard j ≠ 1) →
      DecodeExecuteOpcode 0 vmKeys12 (0xF00A + 0x100 * 0) =
        Result.ok
          { vmKeys12 with ProgramCounter := (vmKeys12.ProgramCounter + 65536 - 2) % 65536 }) :=
  ⟨by decide, key_wait_FX0A 0 vmKeys12 0 (by decide)⟩

/-- C11, as stated, fails with the keys 1 and 2 pressed: the word 0xF00A leaves
2 in register 0, not the lowest pressed index 1. -/
theorem key_wait_FX0A_counterexample :
    vmKeys12.Keyboard 1 = 1 ∧
    (∀ j, j < 1 → vmKeys12.Keyboard j ≠ 1) ∧
    (DecodeExecuteOpcode 0 vmKeys12 0xF00A).isOk = true ∧
    (DecodeExecuteOpcode 0 vmKeys12 0xF00A).machine.Registers 0 = 2 ∧
    (DecodeExecuteOpcode 0 vmKeys12 0xF00A).machine.Registers 0 ≠ 1 := by
  decide

/-! ## The font address 0xFX29 -/

/-- What 0xFX29 does: the index register receives the memory byte found at the
address held in register X. -/
theorem font_address_FX29_reads_memory (rnd : Nat) (vm : VirtualMachine) (x : Nat)
    (hx : x < 16) :
    DecodeExecuteOpcode rnd vm (0xF029 + 0x100 * x) =
      Result.ok { vm with IndexRegister := vm.Memory ((0 + vm.Registers x) % 256) } := by
  rw [decode_familyF rnd vm _ (by omega)]
  have h1 : (0xF029 + 0x100 * x) / 256 % 16 = x := by omega
  have h2 : (0xF029 + 0x100 * x) % 256 = 0x29 := by omega
  rw [h1, h2]
  unfold execF
  rw [if_neg (by decide), if_neg (by decide), if_neg (by decide), if_neg (by decide),
    if_neg (by decide), if_pos (by decide), if_pos (by omega)]

/-- C12 at the failing input: the fresh machine (font table at 0x000..0x04F) with
`V0 = 3` and the word 0xF029. The glyph of digit 3 is at address 15, the index
register receives the byte `Memory[3] = 0x90` instead. -/
theorem font_address_FX29_failing_input :
    (∀ a, a < 80 → (withRegisters regsMixed).Memory a = fontSet.getD a 0) ∧
    (withRegisters regsMixed).Registers 0 = 3 ∧
    5 * ((withRegisters regsMixed).Registers 0 &&& 0xF) = 15 ∧
    (DecodeExecuteOpcode 0 (withRegisters regsMixed) 0xF029).isOk = true ∧
    (DecodeExecuteOpcode 0 (withRegisters regsMixed) 0xF029).machine.IndexRegister = 0x90 ∧
    (DecodeExecuteOpcode 0 (withRegisters regsMixed) 0xF029).machine.IndexRegister ≠ 15 := by
  decide

/-! ## Words outside the documented forms -/

/-- C13, as amended: the words of family 0x0000 whose low byte is neither 0xE0
nor 0xEE, of family 0x8000 whose low nibble is not one of 0..7, 0xE, of family
0xE000 whose low byte is neither 0x9E nor 0xA1, and of family 0xF000 whose low
byte is none of 07, 0A, 15, 18, 1E, 29, 33, 55, 65 leave the machine as it is.
The families 0x5000 and 0x9000 are not tested on their low nibble: every word
0x5XYN, 0x9XYN runs the comparison of registers X and Y. Family 0x0000 is not
tested on its third nibble: every word 0x0XE0 runs as 0x00E0 and every word
0x0XEE runs as 0x00EE. -/
theorem unknown_opcode_is_noop (rnd : Nat) (vm : VirtualMachine) (opcode : Nat) :
    (((opcode &&& 0xF000 = 0x0000 ∧ opcode &&& 0x00FF ≠ 0xE0 ∧ opcode &&& 0x00FF ≠ 0xEE) ∨
      (opcode &&& 0xF000 = 0x8000 ∧ opcode &&& 0x000F ∉ [0, 1, 2, 3, 4, 5, 6, 7, 0xE]) ∨
      (opcode &&& 0xF000 = 0xE000 ∧ opcode &&& 0x00FF ∉ [0x9E, 0xA1]) ∨
      (opcode &&& 0xF000 = 0xF000 ∧
        opcode &&& 0x00FF ∉ [0x07, 0x0A, 0x15, 0x18, 0x1E, 0x29, 0x33, 0x55, 0x65])) →
      DecodeExecuteOpcode rnd vm opcode = Result.ok vm) ∧
    (opcode &&& 0xF000 = 0x5000 →
      DecodeExecuteOpcode rnd vm opcode =
        if vm.Registers ((opcode >>> 8) &&& 0x000F) = vm.Registers ((opcode >>> 4) &&& 0x000F)
        then Result.ok (incrementPC vm) else Result.ok vm) ∧
    (opcode &&& 0xF000 = 0x9000 →
      DecodeExecuteOpcode rnd vm opcode =
        if vm.Registers ((opcode >>> 8) &&& 0x000F) ≠ vm.Registers ((opcode >>> 4) &&& 0x000F)
        then Result.ok (incrementPC vm) else Result.ok vm) ∧
    (opcode &&& 0xF000 = 0x0000 → opcode &&& 0x00FF = 0xE0 →
      DecodeExecuteOpcode rnd vm opcode = DecodeExecuteOpcode rnd vm 0x00E0) ∧
    (opcode &&& 0xF000 = 0x0000 → opcode &&& 0x00FF = 0xEE →
      DecodeExecuteOpcode rnd vm opcode = DecodeExecuteOpcode rnd vm 0x00EE) := by
  refine ⟨?_, ?_, ?_, ?_, ?_⟩
  · rintro (⟨h1, h2, h3⟩ | ⟨h1, h2⟩ | ⟨h1, h2⟩ | ⟨h1, h2⟩)
    · simp only [DecodeExecuteOpcode, h1, if_true, exec0, h2, h3, if_false]
    · simp only [List.mem_cons, List.mem_singleton, List.not_mem_nil, or_false, not_or] at h2
      simp [DecodeExecuteOpcode, h1, exec8, h2]
    · simp only [List.mem_cons, List.mem_singleton, List.not_mem_nil, or_false, not_or] at h2
      simp [DecodeExecuteOpcode, h1, execE, h2]
    · simp only [List.mem_cons, List.mem_singleton, List.not_mem_nil, or_false, not_or] at h2
      simp [DecodeExecuteOpcode, h1, execF, h2]
  · intro h1
    simp [DecodeExecuteOpcode, h1]
  · intro h1
    simp [DecodeExecuteOpcode, h1]
  · intro h1 h2
    rw [decode_family0 rnd vm 0x00E0 (by decide)]
    simp only [DecodeExecuteOpcode, h1, if_true, h2]
  · intro h1 h2
    rw [decode_family0 rnd vm 0x00EE (by decide)]
    simp only [DecodeExecuteOpcode, h1, if_true, h2]

/-- C13, witness: the words 0x8008, 0x5120, 0x9120, 0x01E0 and 0x01EE on the fresh
machine. -/
theorem unknown_opcode_is_noop_witness :
    (((0x8008 &&& 0xF000 = 0x0000 ∧ 0x8008 &&& 0x00FF ≠ 0xE0 ∧ 0x8008 &&& 0x00FF ≠ 0xEE) ∨
      (0x8008 &&& 0xF000 = 0x8000 ∧ 0x8008 &&& 0x000F ∉ [0, 1, 2, 3, 4, 5, 6, 7, 0xE]) ∨
      (0x8008 &&& 0xF000 = 0xE000 ∧ 0x8008 &&& 0x00FF ∉ [0x9E, 0xA1]) ∨
      (0x8008 &&& 0xF000 = 0xF000 ∧
        0x8008 &&& 0x00FF ∉ [0x07, 0x0A, 0x15, 0x18, 0x1E, 0x29, 0x33, 0x55, 0x65])) ∧
      DecodeExecuteOpcode 0 CreateVirtualMachine 0x8008 = Result.ok CreateVirtualMachine) ∧
    (0x5120 &&& 0xF000 = 0x5000 ∧
      DecodeExecuteOpcode 0 CreateVirtualMachine 0x5120 =
        if CreateVirtualMachine.Registers ((0x5120 >>> 8) &&& 0x000F)
            = CreateVirtualMachine.Registers ((0x5120 >>> 4) &&& 0x000F)
        then Result.ok (incrementPC CreateVirtualMachine) else Result.ok CreateVirtualMachine) ∧
    (0x9120 &&& 0xF000 = 0x9000 ∧
      DecodeExecuteOpcode 0 CreateVirtualMachine 0x9120 =
        if CreateVirtualMachine.Registers ((0x9120 >>> 8) &&& 0x000F)
            ≠ CreateVirtualMachine.Registers ((0x9120 >>> 4) &&& 0x000F)
        then Result.ok (incrementPC CreateVirtualMachine) else Result.ok CreateVirtualMachine) ∧
    ((0x01E0 &&& 0xF000 = 0x0000 ∧ 0x01E0 &&& 0x00FF = 0xE0) ∧
      DecodeExecuteOpcode 0 CreateVirtualMachine 0x01E0 =
        DecodeExecuteOpcode 0 CreateVirtualMachine 0x00E0) ∧
    ((0x01EE &&& 0xF000 = 0x0000 ∧ 0x01EE &&& 0x00FF = 0xEE) ∧
      DecodeExecuteOpcode 0 CreateVirtualMachine 0x01EE =
        DecodeExecuteOpcode 0 CreateVirtualMachine 0x00EE) :=
  ⟨⟨by decide, (unknown_opcode_is_noop 0 CreateVirtualMachine 0x8008).1 (by decide)⟩,
    ⟨by decide, (unknown_opcode_is_noop 0 CreateVirtualMachine 0x5120).2.1 (by decide)⟩,
    ⟨by decide, (unknown_opcode_is_noop 0 CreateVirtualMachine 0x9120).2.2.1 (by decide)⟩,
    ⟨⟨by decide, by decide⟩,
      (unknown_opcode_is_noop 0 CreateVirtualMachine 0x01E0).2.2.2.1 (by decide) (by decide)⟩,
    ⟨⟨by decide, by decide⟩,
      (unknown_opcode_is_noop 0 CreateVirtualMachine 0x01EE).2.2.2.2 (by decide) (by decide)⟩⟩

/-- C13, as stated, fails at four words it lists as undocumented. 0x5001 on the
fresh machine advances the program counter from 0 to 2 (registers 0 and 0 are
equal); 0x9011 on the machine with `V0 = 128` advances it too; 0x01E0 on the
machine with the cell (0, 0) lit clears that cell; 0x01EE on the fresh machine,
whose stack is empty, panics as the return 0x00EE does. -/
theorem unknown_opcode_counterexample :
    (CreateVirtualMachine.ProgramCounter = 0 ∧
      (DecodeExecuteOpcode 0 CreateVirtualMachine 0x5001).isOk = true ∧
      (DecodeExecuteOpcode 0 CreateVirtualMachine 0x5001).machine.ProgramCounter = 2) ∧
    ((withRegisters regsV0).ProgramCounter = 0 ∧
      (DecodeExecuteOpcode 0 (withRegisters regsV0) 0x9011).isOk = true ∧
      (DecodeExecuteOpcode 0 (withRegisters regsV0) 0x9011).machine.ProgramCounter = 2) ∧
    (vmPixel.Display 0 0 = 1 ∧
      (DecodeExecuteOpcode 0 vmPixel 0x01E0).isOk = true ∧
      (DecodeExecuteOpcode 0 vmPixel 0x01E0).machine.Display 0 0 = 0) ∧
    (CreateVirtualMachine.Stack = [] ∧
      (DecodeExecuteOpcode 0 CreateVirtualMachine 0x01EE).isOk = false) := by
  refine ⟨by decide, by decide, ⟨by decide, ?_, ?_⟩, by decide⟩
  · rw [decode_family0 0 vmPixel _ (by decide)]
    unfold exec0
    rw [if_pos (by decide)]
    rfl
  · rw [decode_family0 0 vmPixel _ (by decide)]
    unfold exec0
    rw [if_pos (by decide), foldl_clearColumn]
    rfl

/-! ## The sprite draw at the edges of the display -/

/-- C14 at the failing input: the fresh machine with `V0 = 62`, `V1 = 0`, index
register 0 (sprite byte 0xF0) and the word 0xD011. The sprite bits 2 and 3 have
the target columns 64 and 65; they are drawn in the columns 0 and 1 of row 0
instead of being dropped. -/
theorem draw_edge_failing_input :
    (withRegisters regsEdge).Registers 0 = 62 ∧
    (withRegisters regsEdge).Registers 1 = 0 ∧
    (withRegisters regsEdge).Memory (withRegisters regsEdge).IndexRegister = 0xF0 ∧
    (withRegisters regsEdge).Display 0 0 = 0 ∧
    (withRegisters regsEdge).Display 1 0 = 0 ∧
    (DecodeExecuteOpcode 0 (withRegisters regsEdge) 0xD011).isOk = true ∧
    (DecodeExecuteOpcode 0 (withRegisters regsEdge) 0xD011).machine.Display 0 0 = 1 ∧
    (DecodeExecuteOpcode 0 (withRegisters regsEdge) 0xD011).machine.Display 1 0 = 1 := by
  decide

/-! ## The collision flag of the sprite draw -/

/-- With pairwise distinct target cells, the mask at the cell of an operation is
the sprite bit of that operation. -/
theorem xorMask_mem (ps : List Pixel)
    (hd : ps.Pairwise fun p q => ¬ (p.col = q.col ∧ p.row = q.row)) :
    ∀ p ∈ ps, xorMask ps p.col p.row = p.bit := by
  induction ps with
  | nil => intro p hp; cases hp
  | cons q ps ih =>
    intro p hp
    rw [List.pairwise_cons] at hd
    rcases List.mem_cons.mp hp with rfl | hmem
    · rw [xorMask, if_pos ⟨rfl, rfl⟩, xorMask_eq_zero ps p.col p.row (fun r hr h =>
        hd.1 r hr ⟨h.1.symm, h.2.symm⟩), Nat.xor_zero]
    · rw [xorMask, if_neg (hd.1 p hmem), Nat.zero_xor]
      exact ih hd.2 p hmem

/-- Register 0xF is only ever set to 1 by the pixel operations. -/
theorem foldl_plot_flag_value (ps : List Pixel) :
    ∀ vm : VirtualMachine,
      (ps.foldl plot vm).Registers 0xF = vm.Registers 0xF ∨
        (ps.foldl plot vm).Registers 0xF = 1 := by
  induction ps with
  | nil => intro vm; exact Or.inl rfl
  | cons p ps ih =>
    intro vm
    rw [List.foldl_cons]
    rcases ih (plot vm p) with h | h
    · rw [h, plot_Registers]
      split_ifs
      · right; simp
      · left; rfl
    · exact Or.inr h

/-- With pairwise distinct target cells, register 0xF is 1 after the pixel
operations only if it was 1 before or an operation with sprite bit 1 found its
cell at 1. -/
theorem foldl_plot_flag_origin (ps : List Pixel)
    (hd : ps.Pairwise fun p q => ¬ (p.col = q.col ∧ p.row = q.row)) :
    ∀ vm : VirtualMachine, (ps.foldl plot vm).Registers 0xF = 1 →
      vm.Registers 0xF = 1 ∨ ∃ p ∈ ps, p.bit = 1 ∧ vm.Display p.col p.row = 1 := by
  induction ps with
  | nil => intro vm h; exact Or.inl h
  | cons q ps ih =>
    intro vm h
    rw [List.pairwise_cons] at hd
    rw [List.foldl_cons] at h
    rcases ih hd.2 (plot vm q) h with h1 | ⟨p, hp, hb, hc⟩
    · rw [plot_Registers] at h1
      split_ifs at h1 with hq
      · exact Or.inr ⟨q, List.mem_cons_self _ _, hq.1, hq.2⟩
      · exact Or.inl h1
    · rw [plot_Display, if_neg (hd.1 p hp), Nat.xor_zero] at hc
      exact Or.inr ⟨p, List.mem_cons_of_mem _ hp, hb, hc⟩

/-- Every target cell of a draw is inside the 64 x 32 grid. -/
theorem mem_spritePixels_range (xCoord yCoord : Nat) (mem : Nat → Nat) (index r0 k : Nat)
    (p : Pixel) (hp : p ∈ spritePixels xCoord yCoord mem index r0 k) :
    p.col < 64 ∧ p.row < 32 ∧ p.bit ≤ 1 := by
  unfold spritePixels rowPixels at hp
  rw [List.mem_flatMap] at hp
  obtain ⟨r, _, hr⟩ := hp
  rw [List.mem_map] at hr
  obtain ⟨b, _, rfl⟩ := hr
  refine ⟨Nat.mod_lt _ (by decide), Nat.mod_lt _ (by decide), ?_⟩
  exact Nat.and_le_right

/-- C18: with the `n` sprite bytes inside memory, after 0xDXYN register 0xF is 1
if and only if some display cell that was 1 before the draw is 0 after it, and
it is 0 otherwise. The display need not be binary for this. -/
theorem draw_collision_flag (rnd : Nat) (vm : VirtualMachine) (x y n : Nat)
    (hx : x < 16) (hy : y < 16) (hn : n < 16) (hI : vm.IndexRegister + n ≤ 4096) :
    ∃ vm', DecodeExecuteOpcode rnd vm (0xD000 + 0x100 * x + 0x10 * y + n) = Result.ok vm' ∧
      (vm'.Registers 0xF = 1 ↔
        ∃ cx cy, cx < 64 ∧ cy < 32 ∧ vm.Display cx cy = 1 ∧ vm'.Display cx cy = 0) ∧
      (vm'.Registers 0xF = 1 ∨ vm'.Registers 0xF = 0) := by
  rw [decode_DXYN rnd vm x y n hx hy hn, execD_ok vm x y n hI]
  have hd := spritePixels_pairwise (vm.Registers x) (vm.Registers y) vm.Memory
    vm.IndexRegister 0 n (by omega)
  refine ⟨_, rfl, ⟨?_, ?_⟩, ?_⟩
  · intro hF
    rcases foldl_plot_flag_origin _ hd _ hF with h0 | ⟨p, hp, hb, hc⟩
    · simp at h0
    · obtain ⟨h1, h2, _⟩ := mem_spritePixels_range _ _ _ _ _ _ p hp
      refine ⟨p.col, p.row, h1, h2, hc, ?_⟩
      rw [foldl_plot_Display, xorMask_mem _ hd p hp, hb]
      simp only [] at hc ⊢
      rw [hc]
      decide
  · rintro ⟨cx, cy, _, _, h1, h0⟩
    rw [foldl_plot_Display] at h0
    simp only [] at h0
    have hm : xorMask (spritePixels (vm.Registers x) (vm.Registers y) vm.Memory
        vm.IndexRegister 0 n) cx cy = 1 := by
      have := Nat.xor_cancel_left (vm.Display cx cy) (xorMask (spritePixels (vm.Registers x)
        (vm.Registers y) vm.Memory vm.IndexRegister 0 n) cx cy)
      rw [h0, h1] at this
      exact this.symm
    obtain ⟨p, hp, hc, hr, hb⟩ := xorMask_ne_zero _ cx cy hd (by rw [hm]; decide)
    apply foldl_plot_collision _ hd _ p hp (by rw [hb, hm])
    simp only []
    rw [hc, hr]
    exact h1
  · rcases foldl_plot_flag_value
      (spritePixels (vm.Registers x) (vm.Registers y) vm.Memory vm.IndexRegister 0 n)
      { vm with Registers := Function.update vm.Registers 0xF 0 } with h | h
    · right
      rw [h]
      simp
    · exact Or.inl h

/-- C18, witness: the glyph of digit 0 drawn at (3, 200) on the empty display. -/
theorem draw_collision_flag_witness :
    (0 < 16 ∧ 1 < 16 ∧ 5 < 16 ∧ (withRegisters regsMixed).IndexRegister + 5 ≤ 4096) ∧
    ∃ vm', DecodeExecuteOpcode 0 (withRegisters regsMixed) (0xD000 + 0x100 * 0 + 0x10 * 1 + 5)
        = Result.ok vm' ∧
      (vm'.Registers 0xF = 1 ↔
        ∃ cx cy, cx < 64 ∧ cy < 32 ∧ (withRegisters regsMixed).Display cx cy = 1 ∧
          vm'.Display cx cy = 0) ∧
      (vm'.Registers 0xF = 1 ∨ vm'.Registers 0xF = 0) :=
  ⟨⟨by decide, by decide, by decide, by decide⟩,
    draw_collision_flag 0 (withRegisters regsMixed) 0 1 5
      (by decide) (by decide) (by decide) (by decide)⟩

/-! ## The display stays binary -/

theorem loadLoop_Display (data : List Nat) (k : Nat) :
    ∀ (i : Nat) (vm : VirtualMachine), (loadLoop data k i vm).machine.Display = vm.Display := by
  induction k with
  | zero => intro i vm; rfl
  | succ k ih =>
    intro i vm
    rw [loadLoop]
    split_ifs
    · rw [ih]
    · rfl

theorem storeLoop_Display (k : Nat) :
    ∀ (i : Nat) (vm : VirtualMachine), (storeLoop k i vm).machine.Display = vm.Display := by
  induction k with
  | zero => intro i vm; rfl
  | succ k ih =>
    intro i vm
    rw [storeLoop]
    split_ifs
    · rw [ih]
    · rfl

theorem fillLoop_Display (k : Nat) :
    ∀ (i : Nat) (vm : VirtualMachine), (fillLoop k i vm).machine.Display = vm.Display := by
  induction k with
  | zero => intro i vm; rfl
  | succ k ih =>
    intro i vm
    rw [fillLoop]
    split_ifs
    · rw [ih]
    · rfl

theorem binary_of_Display_eq (vm vm' : VirtualMachine) (h : vm'.Display = vm.Display)
    (hb : BinaryDisplay vm) : BinaryDisplay vm' := by
  intro x hx y hy
  rw [h]
  exact hb x hx y hy

/-- One pixel operation with a sprite bit 0 or 1 keeps the display binary. -/
theorem plot_binary (vm : VirtualMachine) (p : Pixel) (hbit : p.bit ≤ 1)
    (hb : BinaryDisplay vm) : BinaryDisplay (plot vm p) := by
  intro x hx y hy
  rw [plot_Display]
  have hbit' : p.bit = 0 ∨ p.bit = 1 := by omega
  rcases hb x hx y hy with h | h <;> rcases hbit' with h' | h' <;> rw [h] <;>
    split_ifs <;> simp [h']

theorem foldl_plot_binary (ps : List Pixel) (hbits : ∀ p ∈ ps, p.bit ≤ 1) :
    ∀ vm : VirtualMachine, BinaryDisplay vm → BinaryDisplay (ps.foldl plot vm) := by
  induction ps with
  | nil => intro vm hb; exact hb
  | cons p ps ih =>
    intro vm hb
    rw [List.foldl_cons]
    exact ih (fun q hq => hbits q (List.mem_cons_of_mem _ hq)) _
      (plot_binary vm p (hbits p (List.mem_cons_self _ _)) hb)

theorem drawRow_binary (xCoord yCoord byteIndex spriteRow : Nat) (vm : VirtualMachine)
    (hb : BinaryDisplay vm) : BinaryDisplay (drawRow xCoord yCoord byteIndex spriteRow vm) := by
  rw [drawRow_eq_foldl]
  apply foldl_plot_binary _ _ vm hb
  intro p hp
  unfold rowPixels at hp
  rw [List.mem_map] at hp
  obtain ⟨b, _, rfl⟩ := hp
  exact Nat.and_le_right

/-- The outer loop of the draw keeps the display binary, also when it panics. -/
theorem drawLoop_binary (xCoord yCoord : Nat) (k : Nat) :
    ∀ (r0 : Nat) (vm : VirtualMachine), BinaryDisplay vm →
      BinaryDisplay (drawLoop xCoord yCoord k r0 vm).machine := by
  induction k with
  | zero => intro r0 vm hb; exact hb
  | succ k ih =>
    intro r0 vm hb
    rw [drawLoop]
    simp only []
    split_ifs
    · exact ih _ _ (drawRow_binary _ _ _ _ vm hb)
    · exact hb

theorem machine_of_ok (r : Result) (vm' : VirtualMachine) (h : r = Result.ok vm') :
    vm' = r.machine := by
  rw [h]
  rfl

theorem binary_ite (c : Prop) [Decidable c] (a b : Result)
    (ha : BinaryDisplay a.machine) (hb : BinaryDisplay b.machine) :
    BinaryDisplay (if c then a else b).machine := by
  split_ifs
  · exact ha
  · exact hb

theorem exec0_binary (vm : VirtualMachine) (nn : Nat) (hb : BinaryDisplay vm) :
    BinaryDisplay (exec0 vm nn).machine := by
  unfold exec0
  split_ifs
  · rw [foldl_clearColumn]
    intro x hx y hy
    left
    simp only [Result.machine, screenWidth, screenHeight]
    rw [if_pos ⟨hx, hy⟩]
  · exact hb
  · exact hb
  · exact hb

theorem exec8_binary (vm : VirtualMachine) (x y n : Nat) (hb : BinaryDisplay vm) :
    BinaryDisplay (exec8 vm x y n).machine := by
  unfold exec8
  repeat' apply binary_ite
  all_goals exact hb

theorem execD_binary (vm : VirtualMachine) (x y n : Nat) (hb : BinaryDisplay vm) :
    BinaryDisplay (execD vm x y n).machine := by
  unfold execD
  exact drawLoop_binary _ _ _ _ _ hb

theorem execE_binary (vm : VirtualMachine) (x nn : Nat) (hb : BinaryDisplay vm) :
    BinaryDisplay (execE vm x nn).machine := by
  unfold execE
  split_ifs <;> exact hb

theorem foldl_keyScan_Display (x : Nat) (vm : VirtualMachine) (n : Nat) :
    ((List.range n).foldl (keyScan x) (vm, false)).1.Display = vm.Display := by
  rw [foldl_keyScan]
  cases lastPressed vm.Keyboard n <;> rfl

theorem keyWait_binary (vm : VirtualMachine) (st : VirtualMachine × Bool)
    (hst : st.1.Display = vm.Display) (hb : BinaryDisplay vm) :
    BinaryDisplay (if ¬ st.2 = true then
        Result.ok { st.1 with ProgramCounter := (st.1.ProgramCounter + 65536 - 2) % 65536 }
      else Result.ok st.1).machine := by
  split_ifs
  · intro a ha b hb'
    show st.1.Display a b = 0 ∨ st.1.Display a b = 1
    rw [hst]
    exact hb a ha b hb'
  · intro a ha b hb'
    show st.1.Display a b = 0 ∨ st.1.Display a b = 1
    rw [hst]
    exact hb a ha b hb'

theorem execF_binary (vm : VirtualMachine) (x nn : Nat) (hb : BinaryDisplay vm) :
    BinaryDisplay (execF vm x nn).machine := by
  have hkey := foldl_keyScan_Display x vm 16
  unfold execF
  refine binary_ite _ _ _ hb ?_
  refine binary_ite _ _ _ hb ?_
  refine binary_ite _ _ _ hb ?_
  refine binary_ite _ _ _ hb ?_
  refine binary_ite _ _ _
    (keyWait_binary vm ((List.range 16).foldl (keyScan x) (vm, false)) hkey hb) ?_
  refine binary_ite _ _ _ (binary_ite _ _ _ hb hb) ?_
  refine binary_ite _ _ _
    (binary_ite _ _ _ (binary_ite _ _ _ (binary_ite _ _ _ hb hb) hb) hb) ?_
  refine binary_ite _ _ _ (binary_of_Display_eq vm _ (storeLoop_Display _ _ _) hb) ?_
  exact binary_ite _ _ _ (binary_of_Display_eq vm _ (fillLoop_Display _ _ _) hb) hb

/-- Every word keeps the display binary, whether the call returns or panics. -/
theorem DecodeExecuteOpcode_binary (rnd : Nat) (vm : VirtualMachine) (opcode : Nat)
    (hb : BinaryDisplay vm) : BinaryDisplay (DecodeExecuteOpcode rnd vm opcode).machine := by
  unfold DecodeExecuteOpcode
  refine binary_ite _ _ _ (exec0_binary _ _ hb) ?_
  refine binary_ite _ _ _ hb ?_
  refine binary_ite _ _ _ hb ?_
  refine binary_ite _ _ _ (binary_ite _ _ _ hb hb) ?_
  refine binary_ite _ _ _ (binary_ite _ _ _ hb hb) ?_
  refine binary_ite _ _ _ (binary_ite _ _ _ hb hb) ?_
  refine binary_ite _ _ _ hb ?_
  refine binary_ite _ _ _ hb ?_
  refine binary_ite _ _ _ (exec8_binary _ _ _ _ hb) ?_
  refine binary_ite _ _ _ (binary_ite _ _ _ hb hb) ?_
  refine binary_ite _ _ _ hb ?_
  refine binary_ite _ _ _ hb ?_
  refine binary_ite _ _ _ hb ?_
  refine binary_ite _ _ _ (execD_binary _ _ _ _ hb) ?_
  refine binary_ite _ _ _ (execE_binary _ _ _ hb) ?_
  exact binary_ite _ _ _ (execF_binary _ _ _ hb) hb

/-- C20: every display cell of the machine of `CreateVirtualMachine` is 0, and
from a machine whose display cells are all 0 or 1 every `Load`, `FetchOpcode`,
and `DecodeExecuteOpcode` (for every word) that returns, and every `Tick`, gives
a machine whose display cells are all 0 or 1. -/
theorem display_stays_binary :
    (∀ x y, CreateVirtualMachine.Display x y = 0) ∧
    BinaryDisplay CreateVirtualMachine ∧
    ∀ vm, BinaryDisplay vm →
      (∀ data vm', Load vm data = Result.ok vm' → BinaryDisplay vm') ∧
      (∀ opcode vm', FetchOpcode vm = some (opcode, vm') → BinaryDisplay vm') ∧
      BinaryDisplay (Tick vm).1 ∧
      (∀ rnd opcode vm', DecodeExecuteOpcode rnd vm opcode = Result.ok vm' →
        BinaryDisplay vm') := by
  refine ⟨fun _ _ => rfl, fun _ _ _ _ => Or.inl rfl, ?_⟩
  intro vm hb
  refine ⟨?_, ?_, ?_, ?_⟩
  · intro data vm' h
    unfold Load at h
    have hl := loadLoop_Display data data.length 0 vm
    cases hr : loadLoop data data.length 0 vm with
    | ok vm1 =>
      rw [hr] at h hl
      cases h
      exact binary_of_Display_eq vm _ hl hb
    | panic vm1 =>
      rw [hr] at h
      cases h
  · intro opcode vm' h
    unfold FetchOpcode at h
    cases hg : getOpcode vm vm.ProgramCounter with
    | none =>
      rw [hg] at h
      cases h
    | some op =>
      rw [hg] at h
      cases h
      exact hb
  · unfold Tick
    simp only []
    split_ifs <;> exact hb
  · intro rnd opcode vm' h
    rw [machine_of_ok _ _ h]
    exact DecodeExecuteOpcode_binary rnd vm opcode hb

/-! ## Bounds of the memory-relative opcodes -/

theorem isOk_of_ok (r : Result) (vm' : VirtualMachine) (h : r = Result.ok vm') :
    r.isOk = true := by
  rw [h]
  rfl

/-- The loop of 0xFX55 when every store is in range. -/
theorem storeLoop_ok (k : Nat) :
    ∀ (i : Nat) (vm : VirtualMachine), vm.IndexRegister + i + k ≤ 4096 →
      storeLoop k i vm = Result.ok
        { vm with
          Memory := fun a =>
            if vm.IndexRegister + i ≤ a ∧ a < vm.IndexRegister + i + k then
              vm.Registers (a - vm.IndexRegister)
            else vm.Memory a } := by
  induction k with
  | zero =>
    intro i vm _
    have hm : (fun a => if vm.IndexRegister + i ≤ a ∧ a < vm.IndexRegister + i + 0 then
        vm.Registers (a - vm.IndexRegister) else vm.Memory a) = vm.Memory := by
      funext a
      rw [if_neg (by omega)]
    rw [storeLoop, hm]
  | succ k ih =>
    intro i vm h
    have ha : (vm.IndexRegister + i) % 65536 = vm.IndexRegister + i := by omega
    rw [storeLoop]
    simp only [ha]
    rw [if_pos (by omega), ih (i + 1) _ (by simp only []; omega)]
    simp only []
    congr 2
    funext a
    by_cases hai : a = vm.IndexRegister + i
    · subst hai
      rw [if_neg (by omega), if_pos (by omega)]
      simp
    · by_cases hr : vm.IndexRegister + (i + 1) ≤ a ∧ a < vm.IndexRegister + (i + 1) + k
      · rw [if_pos hr, if_pos (by omega)]
      · rw [if_neg hr, if_neg (by omega)]
        simp [Function.update_apply, hai]

/-- The loop of 0xFX55 when a store is out of range: it panics. -/
theorem storeLoop_panic (k : Nat) :
    ∀ (i : Nat) (vm : VirtualMachine), 1 ≤ k → vm.IndexRegister + i < 65536 →
      4096 < vm.IndexRegister + i + k → (storeLoop k i vm).isOk = false := by
  induction k with
  | zero => intro i vm h; omega
  | succ k ih =>
    intro i vm _ h1 h2
    have ha : (vm.IndexRegister + i) % 65536 = vm.IndexRegister + i := by omega
    rw [storeLoop]
    simp only [ha]
    by_cases hi : vm.IndexRegister + i < 4096
    · rw [if_pos hi]
      exact ih (i + 1) _ (by omega) (by simp only []; omega) (by simp only []; omega)
    · rw [if_neg hi]
      rfl

/-- The loop of 0xFX65 when every read is in range. -/
theorem fillLoop_ok (k : Nat) :
    ∀ (i : Nat) (vm : VirtualMachine), vm.IndexRegister + i + k ≤ 4096 →
      fillLoop k i vm = Result.ok
        { vm with
          Registers := fun r =>
            if i ≤ r ∧ r < i + k then vm.Memory (vm.IndexRegister + r) else vm.Registers r } := by
  induction k with
  | zero =>
    intro i vm _
    have hm : (fun r => if i ≤ r ∧ r < i + 0 then vm.Memory (vm.IndexRegister + r)
        else vm.Registers r) = vm.Registers := by
      funext r
      rw [if_neg (by omega)]
    rw [fillLoop, hm]
  | succ k ih =>
    intro i vm h
    have ha : (vm.IndexRegister + i) % 65536 = vm.IndexRegister + i := by omega
    rw [fillLoop]
    simp only [ha]
    rw [if_pos (by omega), ih (i + 1) _ (by simp only []; omega)]
    simp only []
    congr 2
    funext r
    by_cases hri : r = i
    · subst hri
      rw [if_neg (by omega), if_pos (by omega)]
      simp
    · by_cases hr : i + 1 ≤ r ∧ r < i + 1 + k
      · rw [if_pos hr, if_pos (by omega)]
      · rw [if_neg hr, if_neg (by omega)]
        simp [Function.update_apply, hri]

/-- The loop of 0xFX65 when a read is out of range: it panics. -/
theorem fillLoop_panic (k : Nat) :
    ∀ (i : Nat) (vm : VirtualMachine), 1 ≤ k → vm.IndexRegister + i < 65536 →
      4096 < vm.IndexRegister + i + k → (fillLoop k i vm).isOk = false := by
  induction k with
  | zero => intro i vm h; omega
  | succ k ih =>
    intro i vm _ h1 h2
    have ha : (vm.IndexRegister + i) % 65536 = vm.IndexRegister + i := by omega
    rw [fillLoop]
    simp only [ha]
    by_cases hi : vm.IndexRegister + i < 4096
    · rw [if_pos hi]
      exact ih (i + 1) _ (by omega) (by simp only []; omega) (by simp only []; omega)
    · rw [if_neg hi]
      rfl

/-- The outer loop of the draw when a sprite byte is out of range: it panics. -/
theorem drawLoop_panic (xCoord yCoord : Nat) (k : Nat) :
    ∀ (r0 : Nat) (vm : VirtualMachine), 1 ≤ k → vm.IndexRegister + r0 < 65536 →
      4096 < vm.IndexRegister + r0 + k → (drawLoop xCoord yCoord k r0 vm).isOk = false := by
  induction k with
  | zero => intro r0 vm h; omega
  | succ k ih =>
    intro r0 vm _ h1 h2
    have ha : (vm.IndexRegister + r0) % 65536 = vm.IndexRegister + r0 := by omega
    rw [drawLoop]
    simp only [ha]
    by_cases hi : vm.IndexRegister + r0 < 4096
    · rw [if_pos hi]
      have hx : (drawRow xCoord yCoord r0 (vm.Memory (vm.IndexRegister + r0)) vm).IndexRegister
          = vm.IndexRegister := by
        rw [drawRow_eq_foldl, foldl_plot_IndexRegister]
      exact ih (r0 + 1) _ (by omega) (by rw [hx]; omega) (by rw [hx]; omega)
    · rw [if_neg hi]
      rfl

theorem execF_33_ok (vm : VirtualMachine) (x : Nat) (hI : vm.IndexRegister + 2 < 4096) :
    execF vm x 0x33 = Result.ok
      { vm with
        Memory := Function.update
          (Function.update
            (Function.update vm.Memory vm.IndexRegister (vm.Registers x / 100))
            (vm.IndexRegister + 1) ((vm.Registers x / 10) % 10))
          (vm.IndexRegister + 2) ((vm.Registers x % 100) % 10) } := by
  have e1 : (vm.IndexRegister + 1) % 65536 = vm.IndexRegister + 1 := by omega
  have e2 : (vm.IndexRegister + 2) % 65536 = vm.IndexRegister + 2 := by omega
  unfold execF
  rw [if_neg (by decide), if_neg (by decide), if_neg (by decide), if_neg (by decide),
    if_neg (by decide), if_neg (by decide), if_pos (by decide)]
  simp only [e1, e2]
  rw [if_pos (by omega), if_pos (by omega), if_pos (by omega)]

theorem execF_33_panic (vm : VirtualMachine) (x : Nat) (hI : vm.IndexRegister < 65536)
    (h : vm.IndexRegister + 2 ≥ 4096) : (execF vm x 0x33).isOk = false := by
  unfold execF
  rw [if_neg (by decide), if_neg (by decide), if_neg (by decide), if_neg (by decide),
    if_neg (by decide), if_neg (by decide), if_pos (by decide)]
  by_cases h0 : vm.IndexRegister < 4096
  · rw [if_pos h0]
    simp only []
    by_cases h1 : (vm.IndexRegister + 1) % 65536 < 4096
    · rw [if_pos h1, if_neg (by omega)]
      rfl
    · rw [if_neg h1]
      rfl
  · rw [if_neg h0]
    rfl

theorem execF_55 (vm : VirtualMachine) (x : Nat) : execF vm x 0x55 = storeLoop (x + 1) 0 vm := by
  unfold execF
  rw [if_neg (by decide), if_neg (by decide), if_neg (by decide), if_neg (by decide),
    if_neg (by decide), if_neg (by decide), if_neg (by decide), if_pos (by decide)]

theorem execF_65 (vm : VirtualMachine) (x : Nat) : execF vm x 0x65 = fillLoop (x + 1) 0 vm := by
  unfold execF
  rw [if_neg (by decide), if_neg (by decide), if_neg (by decide), if_neg (by decide),
    if_neg (by decide), if_neg (by decide), if_neg (by decide), if_neg (by decide),
    if_pos (by decide)]

/-- Decoding of a word of family 0xF000 assembled from its fields. -/
theorem decode_FXNN (rnd : Nat) (vm : VirtualMachine) (x nn : Nat)
    (hx : x < 16) (hnn : nn < 256) :
    DecodeExecuteOpcode rnd vm (0xF000 + nn + 0x100 * x) = execF vm x nn := by
  rw [decode_familyF rnd vm _ (by omega)]
  have h1 : (0xF000 + nn + 0x100 * x) / 256 % 16 = x := by omega
  have h2 : (0xF000 + nn + 0x100 * x) % 256 = nn := by omega
  rw [h1, h2]

/-- With the sprite bytes inside memory the addresses of the draw do not wrap:
the pixel operations are those of the rows `Memory[I + r]`, `r < n`. -/
theorem spritePixels_unwrapped (xCoord yCoord : Nat) (mem : Nat → Nat) (index n : Nat)
    (h : index + n ≤ 4096) :
    spritePixels xCoord yCoord mem index 0 n =
      (List.range n).flatMap fun r => rowPixels xCoord yCoord (mem (index + r)) r := by
  unfold spritePixels
  rw [← List.range_eq_range']
  apply List.flatMap_congr
  intro r hr
  rw [List.mem_range] at hr
  rw [Nat.mod_eq_of_lt (by omega)]

theorem isOk_false_iff (r : Result) (c : Prop) (hpanic : c → r.isOk = false)
    (hok : ¬ c → r.isOk = true) : r.isOk = false ↔ c := by
  constructor
  · intro h
    by_contra hc
    rw [hok hc] at h
    cases h
  · exact hpanic

/-- C15: for a 16-bit index register `I`, 0xFX33 panics exactly when `I + 2` is
not below 4096, 0xFX55 and 0xFX65 exactly when `I + X` is not below 4096, and
0xDXYN with `N >= 1` exactly when `I + N - 1` is not below 4096 (sums of natural
numbers); when they return, the bytes written or read are those at the
addresses `I + offset` themselves, all below 4096. -/
theorem memory_opcodes_bounds (rnd : Nat) (vm : VirtualMachine) (x y n : Nat)
    (hx : x < 16) (hy : y < 16) (hn : n < 16) (hI : vm.IndexRegister < 65536) :
    (((DecodeExecuteOpcode rnd vm (0xF033 + 0x100 * x)).isOk = false ↔
        vm.IndexRegister + 2 ≥ 4096) ∧
      (vm.IndexRegister + 2 < 4096 →
        DecodeExecuteOpcode rnd vm (0xF033 + 0x100 * x) = Result.ok
          { vm with
            Memory := Function.update
              (Function.update
                (Function.update vm.Memory vm.IndexRegister (vm.Registers x / 100))
                (vm.IndexRegister + 1) ((vm.Registers x / 10) % 10))
              (vm.IndexRegister + 2) ((vm.Registers x % 100) % 10) })) ∧
    (((DecodeExecuteOpcode rnd vm (0xF055 + 0x100 * x)).isOk = false ↔
        vm.IndexRegister + x ≥ 4096) ∧
      (vm.IndexRegister + x < 4096 →
        DecodeExecuteOpcode rnd vm (0xF055 + 0x100 * x) = Result.ok
          { vm with
            Memory := fun a =>
              if vm.IndexRegister ≤ a ∧ a ≤ vm.IndexRegister + x then
                vm.Registers (a - vm.IndexRegister)
              else vm.Memory a })) ∧
    (((DecodeExecuteOpcode rnd vm (0xF065 + 0x100 * x)).isOk = false ↔
        vm.IndexRegister + x ≥ 4096) ∧
      (vm.IndexRegister + x < 4096 →
        DecodeExecuteOpcode rnd vm (0xF065 + 0x100 * x) = Result.ok
          { vm with
            Registers := fun i =>
              if i ≤ x then vm.Memory (vm.IndexRegister + i) else vm.Registers i })) ∧
    ((1 ≤ n →
        ((DecodeExecuteOpcode rnd vm (0xD000 + 0x100 * x + 0x10 * y + n)).isOk = false ↔
          vm.IndexRegister + n - 1 ≥ 4096)) ∧
      (vm.IndexRegister + n ≤ 4096 →
        DecodeExecuteOpcode rnd vm (0xD000 + 0x100 * x + 0x10 * y + n) = Result.ok
          (((List.range n).flatMap fun r =>
              rowPixels (vm.Registers x) (vm.Registers y) (vm.Memory (vm.IndexRegister + r)) r).foldl
            plot { vm with Registers := Function.update vm.Registers 0xF 0 }))) := by
  have d33 := decode_FXNN rnd vm x 0x33 hx (by decide)
  have d55 := decode_FXNN rnd vm x 0x55 hx (by decide)
  have d65 := decode_FXNN rnd vm x 0x65 hx (by decide)
  rw [show 0xF000 + 0x33 + 0x100 * x = 0xF033 + 0x100 * x by omega] at d33
  rw [show 0xF000 + 0x55 + 0x100 * x = 0xF055 + 0x100 * x by omega] at d55
  rw [show 0xF000 + 0x65 + 0x100 * x = 0xF065 + 0x100 * x by omega] at d65
  have dD := decode_DXYN rnd vm x y n hx hy hn
  have s55 : vm.IndexRegister + x < 4096 →
      storeLoop (x + 1) 0 vm = Result.ok
        { vm with
          Memory := fun a =>
            if vm.IndexRegister ≤ a ∧ a ≤ vm.IndexRegister + x then
              vm.Registers (a - vm.IndexRegister)
            else vm.Memory a } := by
    intro h
    rw [storeLoop_ok (x + 1) 0 vm (by omega)]
    congr 2
    funext a
    by_cases ha : vm.IndexRegister ≤ a ∧ a ≤ vm.IndexRegister + x
    · rw [if_pos ha, if_pos (by omega)]
    · rw [if_neg ha, if_neg (by omega)]
  have s65 : vm.IndexRegister + x < 4096 →
      fillLoop (x + 1) 0 vm = Result.ok
        { vm with
          Registers := fun i =>
            if i ≤ x then vm.Memory (vm.IndexRegister + i) else vm.Registers i } := by
    intro h
    rw [fillLoop_ok (x + 1) 0 vm (by omega)]
    congr 2
    funext i
    by_cases hi : i ≤ x
    · rw [if_pos hi, if_pos (by omega)]
    · rw [if_neg hi, if_neg (by omega)]
  have sD : vm.IndexRegister + n ≤ 4096 →
      execD vm x y n = Result.ok
        (((List.range n).flatMap fun r =>
            rowPixels (vm.Registers x) (vm.Registers y) (vm.Memory (vm.IndexRegister + r)) r).foldl
          plot { vm with Registers := Function.update vm.Registers 0xF 0 }) := by
    intro h
    rw [execD_ok vm x y n h, spritePixels_unwrapped _ _ _ _ _ h]
  refine ⟨⟨?_, ?_⟩, ⟨?_, ?_⟩, ⟨?_, ?_⟩, ⟨?_, ?_⟩⟩
  · rw [d33]
    apply isOk_false_iff
    · exact execF_33_panic vm x hI
    · intro h
      exact isOk_of_ok _ _ (execF_33_ok vm x (by omega))
  · intro h
    rw [d33, execF_33_ok vm x h]
  · rw [d55, execF_55]
    apply isOk_false_iff
    · intro h
      exact storeLoop_panic (x + 1) 0 vm (by omega) (by omega) (by omega)
    · intro h
      exact isOk_of_ok _ _ (s55 (by omega))
  · intro h
    rw [d55, execF_55, s55 h]
  · rw [d65, execF_65]
    apply isOk_false_iff
    · intro h
      exact fillLoop_panic (x + 1) 0 vm (by omega) (by omega) (by omega)
    · intro h
      exact isOk_of_ok _ _ (s65 (by omega))
  · intro h
    rw [d65, execF_65, s65 h]
  · intro h1
    rw [dD]
    apply isOk_false_iff
    · intro h
      unfold execD
      exact drawLoop_panic _ _ n 0 _ h1 (by simp only []; omega) (by simp only []; omega)
    · intro h
      exact isOk_of_ok _ _ (sD (by omega))
  · intro h
    rw [dD, sD h]

/-- C15, witness: the fresh machine with registers `V1 = 200`, `V2 = 100`, index
register 0, and the words 0xF133, 0xF155, 0xF165, 0xD125. -/
theorem memory_opcodes_bounds_witness :
    (1 < 16 ∧ 2 < 16 ∧ 5 < 16 ∧ (withRegisters regsMixed).IndexRegister < 65536) ∧
    (DecodeExecuteOpcode 0 (withRegisters regsMixed) (0xF033 + 0x100 * 1)).isOk = true ∧
    (DecodeExecuteOpcode 0 (withRegisters regsMixed) (0xF055 + 0x100 * 1)).isOk = true ∧
    (DecodeExecuteOpcode 0 (withRegisters regsMixed) (0xF065 + 0x100 * 1)).isOk = true ∧
    (DecodeExecuteOpcode 0 (withRegisters regsMixed)
      (0xD000 + 0x100 * 1 + 0x10 * 2 + 5)).isOk = true :=
  have h := memory_opcodes_bounds 0 (withRegisters regsMixed) 1 2 5
    (by decide) (by decide) (by decide) (by decide)
  ⟨⟨by decide, by decide, by decide, by decide⟩,
    isOk_of_ok _ _ (h.1.2 (by decide)),
    isOk_of_ok _ _ (h.2.1.2 (by decide)),
    isOk_of_ok _ _ (h.2.2.1.2 (by decide)),
    isOk_of_ok _ _ (h.2.2.2.2 (by decide))⟩

/-- The bounds evaluated with the index register at 4095: 0xF033 panics, 0xF055
and 0xF065 return, 0xF155 and 0xF165 panic, 0xD001 returns and 0xD002 panics. -/
theorem memory_opcodes_values :
    (DecodeExecuteOpcode 0 vmIndexEnd 0xF033).isOk = false ∧
    (DecodeExecuteOpcode 0 vmIndexEnd 0xF055).isOk = true ∧
    (DecodeExecuteOpcode 0 vmIndexEnd 0xF065).isOk = true ∧
    (DecodeExecuteOpcode 0 vmIndexEnd 0xF155).isOk = false ∧
    (DecodeExecuteOpcode 0 vmIndexEnd 0xF165).isOk = false ∧
    (DecodeExecuteOpcode 0 vmIndexEnd 0xD001).isOk = true ∧
    (DecodeExecuteOpcode 0 vmIndexEnd 0xD002).isOk = false := by
  decide

end Chip8
